import Mathlib

/-
  Shallow embedding of `src/final/db.py`, a single-file B+-tree backed
  relational store.  Python byte strings are modelled as `List Nat`
  (each element a byte value), Python `str` values as `List Nat` of
  Unicode code points, machine integers as `Nat` with explicit range
  conditions where the source can overflow.  Fallible code (Python
  exceptions / `sys.exit`) is modelled with `Option` / `Except`.
-/

set_option maxRecDepth 10000

/-! ## Constants (`db.py` lines 6-60) -/

def COLUMN_USERNAME_SIZE : Nat := 32
def COLUMN_EMAIL_SIZE : Nat := 255

/-- `struct.calcsize('<I32s255s')` = 4 + 32 + 255 = 291. -/
def ROW_SIZE : Nat := 4 + COLUMN_USERNAME_SIZE + COLUMN_EMAIL_SIZE

def PAGE_SIZE : Nat := 4096
def TABLE_MAX_PAGES : Nat := 400
def INVALID_PAGE_NUM : Nat := 0xFFFFFFFF

def NODE_TYPE_SIZE : Nat := 1
def IS_ROOT_SIZE : Nat := 1
def PARENT_POINTER_SIZE : Nat := 4
def COMMON_NODE_HEADER_SIZE : Nat := NODE_TYPE_SIZE + IS_ROOT_SIZE + PARENT_POINTER_SIZE

def INTERNAL_NODE_NUM_KEYS_SIZE : Nat := 4
def INTERNAL_NODE_RIGHT_CHILD_SIZE : Nat := 4
def INTERNAL_NODE_HEADER_SIZE : Nat :=
  COMMON_NODE_HEADER_SIZE + INTERNAL_NODE_NUM_KEYS_SIZE + INTERNAL_NODE_RIGHT_CHILD_SIZE

def INTERNAL_NODE_KEY_SIZE : Nat := 4
def INTERNAL_NODE_CHILD_SIZE : Nat := 4
def INTERNAL_NODE_CELL_SIZE : Nat := INTERNAL_NODE_CHILD_SIZE + INTERNAL_NODE_KEY_SIZE
def INTERNAL_NODE_MAX_KEYS : Nat := 3

def LEAF_NODE_NUM_CELLS_SIZE : Nat := 4
def LEAF_NODE_NEXT_LEAF_SIZE : Nat := 4
def LEAF_NODE_HEADER_SIZE : Nat :=
  COMMON_NODE_HEADER_SIZE + LEAF_NODE_NUM_CELLS_SIZE + LEAF_NODE_NEXT_LEAF_SIZE

def LEAF_NODE_KEY_SIZE : Nat := 4
def LEAF_NODE_VALUE_SIZE : Nat := ROW_SIZE
def LEAF_NODE_CELL_SIZE : Nat := LEAF_NODE_KEY_SIZE + LEAF_NODE_VALUE_SIZE
def LEAF_NODE_SPACE_FOR_CELLS : Nat := PAGE_SIZE - LEAF_NODE_HEADER_SIZE
def LEAF_NODE_MAX_CELLS : Nat := LEAF_NODE_SPACE_FOR_CELLS / LEAF_NODE_CELL_SIZE

def LEAF_NODE_RIGHT_SPLIT_COUNT : Nat := (LEAF_NODE_MAX_CELLS + 1) / 2
def LEAF_NODE_LEFT_SPLIT_COUNT : Nat :=
  (LEAF_NODE_MAX_CELLS + 1) - LEAF_NODE_RIGHT_SPLIT_COUNT

/-! ## Enums (`db.py` lines 62-85) -/

inductive NodeKind
  | INTERNAL
  | LEAF
deriving DecidableEq, Repr

inductive PrepareResult
  | SUCCESS
  | NEGATIVE_ID
  | STRING_TOO_LONG
  | SYNTAX_ERROR
  | UNRECOGNIZED_STATEMENT
deriving DecidableEq, Repr

inductive ExecuteResult
  | SUCCESS
  | TABLE_FULL
  | DUPLICATE_KEY
deriving DecidableEq, Repr

inductive StatementType
  | INSERT
  | SELECT
deriving DecidableEq, Repr

/-! ## Row and the row codec (`db.py` lines 89-95, 177-189)

A Python `Row` holds an `int` id and two `str` fields.  We model the
strings as lists of Unicode code points. -/

structure Row where
  id : Nat
  username : List Nat
  email : List Nat
deriving DecidableEq, Repr

/-- `str.encode('ascii')`: succeeds and is the identity on code points
iff every code point is below 128 (raises `UnicodeEncodeError` otherwise). -/
def pyEncodeAscii (s : List Nat) : Option (List Nat) :=
  if s.all (fun c => c < 128) then some s else none

/-- `bytes.decode('ascii')`: succeeds iff every byte is below 128. -/
def pyDecodeAscii (bs : List Nat) : Option (List Nat) :=
  if bs.all (fun c => c < 128) then some bs else none

/-- The four little-endian bytes of a `u32` (`struct` format `<I`). -/
def packU32LE (n : Nat) : List Nat :=
  [n % 256, n / 256 % 256, n / 65536 % 256, n / 16777216 % 256]

/-- Read a 4-byte little-endian unsigned integer. -/
def unpackU32LE (bs : List Nat) : Nat :=
  match bs with
  | [b0, b1, b2, b3] => b0 + 256 * b1 + 65536 * b2 + 16777216 * b3
  | _ => 0

/-- `struct` format `ns`: the bytes are truncated or NUL-padded to exactly
`n` bytes. -/
def packBytes (n : Nat) (bs : List Nat) : List Nat :=
  bs.take n ++ List.replicate (n - bs.length) 0

/-- Python `str.rstrip('\x00')`: drop trailing NUL code points. -/
def rstripNul (s : List Nat) : List Nat :=
  (s.reverse.dropWhile (fun c => c == 0)).reverse

/-- `serialize_row(row, page, offset)` (`db.py` 177-180): encode both strings
as ASCII, then `struct.pack_into('<I32s255s', ...)`.  Returns the 291 bytes
written, or `none` when the Python code raises (`UnicodeEncodeError` from
`encode('ascii')`, or `struct.error` when the id does not fit in a `u32`). -/
def serialize_row (row : Row) : Option (List Nat) :=
  match pyEncodeAscii row.username with
  | none => none
  | some ub =>
    match pyEncodeAscii row.email with
    | none => none
    | some eb =>
      if row.id < 2 ^ 32 then
        some (packU32LE row.id ++ packBytes COLUMN_USERNAME_SIZE ub ++
              packBytes COLUMN_EMAIL_SIZE eb)
      else none

/-- `deserialize_row(data)` (`db.py` 182-189): `struct.unpack('<I32s255s')`
(requires exactly `ROW_SIZE` bytes), ASCII-decode both string fields and
strip trailing NULs. -/
def deserialize_row (data : List Nat) : Option Row :=
  if data.length = ROW_SIZE then
    match pyDecodeAscii ((data.drop 4).take COLUMN_USERNAME_SIZE) with
    | none => none
    | some us =>
      match pyDecodeAscii ((data.drop (4 + COLUMN_USERNAME_SIZE)).take COLUMN_EMAIL_SIZE) with
      | none => none
      | some es =>
        some { id := unpackU32LE (data.take 4),
               username := rstripNul us,
               email := rstripNul es }
  else none

/-! ## Statement parsing (`db.py` lines 661-677)

Python `str` input is a list of code points. -/

/-- ASCII whitespace characters recognised by `str.split()`. -/
def isPySpace (c : Nat) : Bool :=
  c == 32 || c == 9 || c == 10 || c == 13 || c == 11 || c == 12

/-- Helper for `pySplit`: `cur` is the current word, reversed. -/
def pySplitAux : List Nat → List Nat → List (List Nat)
  | [], cur => if cur.isEmpty then [] else [cur.reverse]
  | c :: rest, cur =>
    if isPySpace c then
      if cur.isEmpty then pySplitAux rest []
      else cur.reverse :: pySplitAux rest []
    else pySplitAux rest (c :: cur)

/-- Python `str.split()` with no arguments: split on runs of whitespace,
discarding empty words.  (We model the ASCII whitespace characters.) -/
def pySplit (s : List Nat) : List (List Nat) :=
  pySplitAux s []

/-- Value of an ASCII digit character, if it is one. -/
def digitVal (c : Nat) : Option Nat :=
  if 48 ≤ c ∧ c ≤ 57 then some (c - 48) else none

/-- Digits of a Python int literal after the first one: single underscores
are permitted between digits. -/
def parseDigitsAux : List Nat → Nat → Option Nat
  | [], acc => some acc
  | c :: rest, acc =>
    if c = 95 then
      match rest with
      | [] => none
      | d :: rest2 =>
        match digitVal d with
        | some v => parseDigitsAux rest2 (acc * 10 + v)
        | none => none
    else
      match digitVal c with
      | some v => parseDigitsAux rest (acc * 10 + v)
      | none => none

/-- A nonempty digit string, first character a digit. -/
def parseDigits : List Nat → Option Nat
  | [] => none
  | c :: rest =>
    match digitVal c with
    | some v => parseDigitsAux rest v
    | none => none

/-- Strip leading and trailing whitespace. -/
def stripWs (s : List Nat) : List Nat :=
  ((s.dropWhile isPySpace).reverse.dropWhile isPySpace).reverse

/-- Python `int(str)`: optional surrounding whitespace, optional sign,
then decimal digits (underscore separators allowed between digits).
`none` models `ValueError`. -/
def pyInt (s : List Nat) : Option Int :=
  match stripWs s with
  | 43 :: rest => (parseDigits rest).map (fun n => (n : Int))
  | 45 :: rest => (parseDigits rest).map (fun n => -(n : Int))
  | t => (parseDigits t).map (fun n => (n : Int))

/-- The parsed form of a statement (`Statement` class, `db.py` 97-100). -/
inductive Statement
  | insert (row : Row)
  | select
deriving DecidableEq, Repr

/-- Code points of `"insert"`. -/
def kwInsert : List Nat := [105, 110, 115, 101, 114, 116]

/-- Code points of `"select"`. -/
def kwSelect : List Nat := [115, 101, 108, 101, 99, 116]

/-- `prepare_statement(user_input, statement)` (`db.py` 661-677). -/
def prepare_statement (input : List Nat) : PrepareResult × Option Statement :=
  if kwInsert.isPrefixOf input then
    match pySplit input with
    | [_, idTok, userTok, emailTok] =>
      match pyInt idTok with
      | none => (PrepareResult.SYNTAX_ERROR, none)
      | some r_id =>
        if r_id < 0 then (PrepareResult.NEGATIVE_ID, none)
        else if userTok.length > COLUMN_USERNAME_SIZE then (PrepareResult.STRING_TOO_LONG, none)
        else if emailTok.length > COLUMN_EMAIL_SIZE then (PrepareResult.STRING_TOO_LONG, none)
        else (PrepareResult.SUCCESS,
              some (Statement.insert { id := r_id.toNat, username := userTok, email := emailTok }))
    | _ => (PrepareResult.SYNTAX_ERROR, none)
  else if kwSelect.isPrefixOf input then
    (PrepareResult.SUCCESS, some Statement.select)
  else
    (PrepareResult.UNRECOGNIZED_STATEMENT, none)

/-! ### Sanity checks on the layout constants -/

example : ROW_SIZE = 291 := by decide
example : LEAF_NODE_MAX_CELLS = 13 := by decide
example : LEAF_NODE_RIGHT_SPLIT_COUNT = 7 := by decide
example : LEAF_NODE_LEFT_SPLIT_COUNT = 7 := by decide

/-! ## Pager (`db.py` lines 102-148), byte-level

`file` is the byte content of the database file, `pages` the in-memory
page cache.  `sys.exit(1)` paths are modelled as `Except.error`. -/

structure Pager where
  file : List Nat
  num_pages : Nat
  pages : Nat → Option (List Nat)

/-- `Pager.get_page` (`db.py` 117-138): bounds check, cache hit, or
allocate a zero page, overlay bytes read from the file, install in the
cache and extend `num_pages`. -/
def Pager.get_page (p : Pager) (page_num : Nat) : Except Unit (List Nat × Pager) :=
  if page_num > TABLE_MAX_PAGES then .error ()
  else
    match p.pages page_num with
    | some page => .ok (page, p)
    | none =>
      let page :=
        if page_num < p.num_pages then
          let r := (p.file.drop (page_num * PAGE_SIZE)).take PAGE_SIZE
          r ++ List.replicate (PAGE_SIZE - r.length) 0
        else List.replicate PAGE_SIZE 0
      let cached : Pager :=
        { p with pages := fun n => if n = page_num then some page else p.pages n }
      if page_num ≥ p.num_pages then
        .ok (page, { cached with num_pages := page_num + 1 })
      else .ok (page, cached)

/-- `Pager.flush` (`db.py` 140-145): fatal on an uncached page, else seek
and write the page (seeking past EOF zero-fills the gap). -/
def Pager.flush (p : Pager) (page_num : Nat) : Except Unit Pager :=
  match p.pages page_num with
  | none => .error ()
  | some page =>
    let pre := p.file.take (page_num * PAGE_SIZE) ++
      List.replicate (page_num * PAGE_SIZE - p.file.length) 0
    .ok { p with file := pre ++ page ++ p.file.drop (page_num * PAGE_SIZE + PAGE_SIZE) }

/-- `Pager.get_unused_page_num` (`db.py` 147-148). -/
def Pager.get_unused_page_num (p : Pager) : Nat := p.num_pages

/-- Pager cache invariant: every cached page was materialised (so lies
below `num_pages`) and is a full `PAGE_SIZE` buffer. -/
def PagerInv (p : Pager) : Prop :=
  ∀ n page, p.pages n = some page → n < p.num_pages ∧ page.length = PAGE_SIZE

/-! ## Structural node model

A page's content, decoded.  The two node kinds share the common header
and, crucially, the two 4-byte header fields at offsets 6 and 10:
`countField` is `num_cells` of a leaf and `num_keys` of an internal node,
`linkField` is `next_leaf` of a leaf and `right_child` of an internal
node, exactly as the byte layout overlays them.  The body regions are
kept as total functions from cell index to cell content; entries at or
beyond the count are garbage, as unzeroed bytes are in the source. -/

structure LeafCell where
  key : Nat
  value : Row
deriving DecidableEq, Repr

structure Node where
  nodeType : NodeKind
  isRoot : Bool
  parent : Nat
  countField : Nat
  linkField : Nat
  leafCells : Nat → LeafCell
  icells : Nat → Nat × Nat

def zeroRow : Row := { id := 0, username := [], email := [] }

/-- A freshly allocated all-zero page decodes to this node: type byte 0 is
`INTERNAL`, all counters zero, every cell zero. -/
def zeroNode : Node :=
  { nodeType := NodeKind.INTERNAL, isRoot := false, parent := 0,
    countField := 0, linkField := 0,
    leafCells := fun _ => { key := 0, value := zeroRow },
    icells := fun _ => (0, 0) }

/-- The in-memory database: the decoded page heap and the pager's
`num_pages` counter.  Within one session every page access goes through
the cache, so the heap of decoded pages is the whole state. -/
structure Db where
  pages : Nat → Node
  num_pages : Nat

def Db.upd (s : Db) (p : Nat) (f : Node → Node) : Db :=
  { s with pages := fun m => if m = p then f (s.pages m) else s.pages m }

inductive DbErr
  | fatal    -- a `sys.exit(1)` path
  | fuelOut  -- artefact of the fuel-indexed embedding of recursion
deriving DecidableEq, Repr

/-- State-and-error monad over `Db`. -/
abbrev M (α : Type) : Type := Db → Except DbErr (α × Db)

instance : Monad M where
  pure a := fun s => .ok (a, s)
  bind x f := fun s =>
    match x s with
    | .error e => .error e
    | .ok (a, s') => f a s'

def liftE {α : Type} (e : Except DbErr α) : M α :=
  fun s => match e with
  | .error err => .error err
  | .ok a => .ok (a, s)

/-- `pager.get_page(n)` as seen by the tree code: fatal above the page
cap; materialising a fresh page extends `num_pages`.  The returned node
is a live reference, modelled by reading the heap at the moment of use. -/
def getPage (page_num : Nat) : M Node := fun s =>
  if page_num > TABLE_MAX_PAGES then .error .fatal
  else .ok (s.pages page_num,
    if page_num ≥ s.num_pages then { s with num_pages := page_num + 1 } else s)

/-- Read a page buffer already in hand (no pager call). -/
def readPage (p : Nat) : M Node := fun s => .ok (s.pages p, s)

/-- Write through a page buffer already in hand (no pager call). -/
def updPage (p : Nat) (f : Node → Node) : M Unit := fun s => .ok ((), s.upd p f)

/-- `pager.get_unused_page_num()`. -/
def getUnused : M Nat := fun s => .ok (s.num_pages, s)

def outOfFuel {α : Type} : M α := fun _ => .error .fuelOut

/-- `table.root_page_num` (always 0). -/
def root_page_num : Nat := 0

/-! ## Node accessors (`db.py` lines 191-304), pure on a decoded node -/

def get_node_type (nd : Node) : NodeKind := nd.nodeType

def set_node_type (nd : Node) (t : NodeKind) : Node := { nd with nodeType := t }

def is_node_root (nd : Node) : Bool := nd.isRoot

def set_node_root (nd : Node) (b : Bool) : Node := { nd with isRoot := b }

def node_parent (nd : Node) : Nat := nd.parent

def set_node_parent (nd : Node) (p : Nat) : Node := { nd with parent := p }

def leaf_node_num_cells (nd : Node) : Nat := nd.countField

def set_leaf_node_num_cells (nd : Node) (n : Nat) : Node := { nd with countField := n }

def leaf_node_next_leaf (nd : Node) : Nat := nd.linkField

def set_leaf_node_next_leaf (nd : Node) (n : Nat) : Node := { nd with linkField := n }

def leaf_node_cell (nd : Node) (i : Nat) : LeafCell := nd.leafCells i

def set_leaf_node_cell (nd : Node) (i : Nat) (c : LeafCell) : Node :=
  { nd with leafCells := fun j => if j = i then c else nd.leafCells j }

def leaf_node_key (nd : Node) (i : Nat) : Nat := (nd.leafCells i).key

def set_leaf_node_key (nd : Node) (i k : Nat) : Node :=
  set_leaf_node_cell nd i { nd.leafCells i with key := k }

/-- Writing the `ROW_SIZE` value bytes of cell `i` (the `serialize_row`
call sites; the byte-level codec is modelled separately). -/
def set_leaf_node_value (nd : Node) (i : Nat) (r : Row) : Node :=
  set_leaf_node_cell nd i { nd.leafCells i with value := r }

def internal_node_num_keys (nd : Node) : Nat := nd.countField

def set_internal_node_num_keys (nd : Node) (n : Nat) : Node := { nd with countField := n }

def internal_node_right_child (nd : Node) : Nat := nd.linkField

def set_internal_node_right_child (nd : Node) (n : Nat) : Node := { nd with linkField := n }

def internal_node_cell (nd : Node) (i : Nat) : Nat × Nat := nd.icells i

def set_internal_node_cell (nd : Node) (i : Nat) (c : Nat × Nat) : Node :=
  { nd with icells := fun j => if j = i then c else nd.icells j }

/-- `internal_node_child` (`db.py` 279-288): fatal when `child_num >
num_keys`, the right child at `num_keys`, else the cell's child pointer. -/
def internal_node_child (nd : Node) (child_num : Nat) : Except DbErr Nat :=
  let num_keys := internal_node_num_keys nd
  if child_num > num_keys then .error .fatal
  else if child_num = num_keys then .ok (internal_node_right_child nd)
  else .ok (nd.icells child_num).1

/-- `set_internal_node_child` (`db.py` 290-296): no bounds check; writes
the right-child field at index `num_keys`, else the cell's child pointer
(the cell's key bytes are untouched). -/
def set_internal_node_child (nd : Node) (child_num child_page_num : Nat) : Node :=
  if child_num = internal_node_num_keys nd then
    set_internal_node_right_child nd child_page_num
  else
    { nd with icells := fun j =>
        if j = child_num then (child_page_num, (nd.icells child_num).2) else nd.icells j }

def internal_node_key (nd : Node) (i : Nat) : Nat := (nd.icells i).2

def set_internal_node_key (nd : Node) (i k : Nat) : Node :=
  { nd with icells := fun j => if j = i then ((nd.icells i).1, k) else nd.icells j }

def initialize_leaf_node (nd : Node) : Node :=
  set_leaf_node_next_leaf (set_leaf_node_num_cells (set_node_root (set_node_type nd NodeKind.LEAF) false) 0) 0

def initialize_internal_node (nd : Node) : Node :=
  set_internal_node_right_child
    (set_internal_node_num_keys (set_node_root (set_node_type nd NodeKind.INTERNAL) false) 0)
    INVALID_PAGE_NUM

/-- `get_node_max_key(pager, node)` (`db.py` 214-220).  The node argument
is a live buffer, passed here as its page number.  On a leaf it reads the
key of cell `num_cells - 1` (for an empty leaf the source reads garbage
from the page tail via Python's negative offset; here `Nat` truncation
gives cell 0 — both are junk, and the call is unreachable on such nodes).
Recursion through the pager is fuel-indexed. -/
def get_node_max_key : Nat → Nat → M Nat
  | 0, _ => outOfFuel
  | fuel + 1, p => do
    let nd ← readPage p
    match get_node_type nd with
    | NodeKind.LEAF => pure (leaf_node_key nd (leaf_node_num_cells nd - 1))
    | NodeKind.INTERNAL => do
      let right_child_page := internal_node_right_child nd
      let _ ← getPage right_child_page
      get_node_max_key fuel right_child_page

/-! ## B-tree search (`db.py` lines 306-361) -/

/-- The halving loop of `internal_node_find_child` (`db.py` 313-320):
smallest index whose key is `≥ key`.  (The source loop runs while
`min ≠ max`; it is only ever entered with `min ≤ max`, where the `≥`
guard used here is the same test.  The loop shrinks `max - min` every
iteration, so it is written with a structural gas bound: `gas ≥
max_idx - min_idx` reproduces the source loop exactly.) -/
def internalFindLoop (nd : Node) (key : Nat) : Nat → Nat → Nat → Nat
  | 0, min_idx, _ => min_idx
  | gas + 1, min_idx, max_idx =>
    if min_idx ≥ max_idx then min_idx
    else
      if key ≤ internal_node_key nd ((min_idx + max_idx) / 2) then
        internalFindLoop nd key gas min_idx ((min_idx + max_idx) / 2)
      else
        internalFindLoop nd key gas ((min_idx + max_idx) / 2 + 1) max_idx

/-- `internal_node_find_child(node, key)` (`db.py` 308-320). -/
def internal_node_find_child (nd : Node) (key : Nat) : Nat :=
  internalFindLoop nd key (internal_node_num_keys nd) 0 (internal_node_num_keys nd)

/-- The binary-search loop of `leaf_node_find` (`db.py` 327-341): returns
the cell index of `key` if present, else the first index with a larger
key (the insertion position).  Structural gas bound as in
`internalFindLoop`. -/
def leafFindLoop (nd : Node) (key : Nat) : Nat → Nat → Nat → Nat
  | 0, min_idx, _ => min_idx
  | gas + 1, min_idx, one_past_max =>
    if min_idx ≥ one_past_max then min_idx
    else
      if key = leaf_node_key nd ((min_idx + one_past_max) / 2) then
        (min_idx + one_past_max) / 2
      else if key < leaf_node_key nd ((min_idx + one_past_max) / 2) then
        leafFindLoop nd key gas min_idx ((min_idx + one_past_max) / 2)
      else
        leafFindLoop nd key gas ((min_idx + one_past_max) / 2 + 1) one_past_max

structure Cursor where
  page_num : Nat
  cell_num : Nat
  end_of_table : Bool
deriving DecidableEq, Repr

/-- `leaf_node_find(table, page_num, key)` (`db.py` 322-341). -/
def leaf_node_find (page_num key : Nat) : M Cursor := do
  let nd ← getPage page_num
  pure { page_num := page_num,
         cell_num := leafFindLoop nd key (leaf_node_num_cells nd) 0 (leaf_node_num_cells nd),
         end_of_table := false }

/-- `internal_node_find(table, page_num, key)` (`db.py` 343-352). -/
def internal_node_find : Nat → Nat → Nat → M Cursor
  | 0, _, _ => outOfFuel
  | fuel + 1, page_num, key => do
    let nd ← getPage page_num
    let child_index := internal_node_find_child nd key
    let child_num ← liftE (internal_node_child nd child_index)
    let child ← getPage child_num
    match get_node_type child with
    | NodeKind.LEAF => leaf_node_find child_num key
    | NodeKind.INTERNAL => internal_node_find fuel child_num key

/-- `table_find(table, key)` (`db.py` 354-361). -/
def table_find (fuel : Nat) (key : Nat) : M Cursor := do
  let root_node ← getPage root_page_num
  match get_node_type root_node with
  | NodeKind.LEAF => leaf_node_find root_page_num key
  | NodeKind.INTERNAL => internal_node_find fuel root_page_num key

/-! ## Root creation (`db.py` lines 363-398) -/

/-- The re-parenting loop of `create_new_root` (`db.py` 379-382), over
the precomputed `range(num_keys)`. -/
def reparentLoop (left_child_page_num : Nat) : List Nat → M Unit
  | [] => pure ()
  | i :: rest => do
    let lc ← readPage left_child_page_num
    let child_page_num ← liftE (internal_node_child lc i)
    let _ ← getPage child_page_num
    updPage child_page_num (fun nd => set_node_parent nd left_child_page_num)
    reparentLoop left_child_page_num rest

/-- `create_new_root(table, right_child_page_num)` (`db.py` 363-398). -/
def create_new_root (fuel : Nat) (right_child_page_num : Nat) : M Unit := do
  let root ← getPage root_page_num
  let _right_child ← getPage right_child_page_num
  let left_child_page_num ← getUnused
  let _left_child ← getPage left_child_page_num
  if get_node_type root = NodeKind.INTERNAL then do
    updPage right_child_page_num initialize_internal_node
    updPage left_child_page_num initialize_internal_node
  else pure ()
  -- left_child[:] = root[:]  (whole-page copy)
  let rootNow ← readPage root_page_num
  updPage left_child_page_num (fun _ => rootNow)
  updPage left_child_page_num (fun nd => set_node_root nd false)
  let lc ← readPage left_child_page_num
  if get_node_type lc = NodeKind.INTERNAL then do
    reparentLoop left_child_page_num (List.range (internal_node_num_keys lc))
    let lc2 ← readPage left_child_page_num
    let right_child_of_left := internal_node_right_child lc2
    let _ ← getPage right_child_of_left
    updPage right_child_of_left (fun nd => set_node_parent nd left_child_page_num)
  else pure ()
  updPage root_page_num initialize_internal_node
  updPage root_page_num (fun nd => set_node_root nd true)
  updPage root_page_num (fun nd => set_internal_node_num_keys nd 1)
  updPage root_page_num (fun nd => set_internal_node_child nd 0 left_child_page_num)
  let left_child_max ← get_node_max_key fuel left_child_page_num
  updPage root_page_num (fun nd => set_internal_node_key nd 0 left_child_max)
  updPage root_page_num (fun nd => set_internal_node_right_child nd right_child_page_num)
  updPage left_child_page_num (fun nd => set_node_parent nd root_page_num)
  updPage right_child_page_num (fun nd => set_node_parent nd root_page_num)

/-- `update_internal_node_key(node, old_key, new_key)` (`db.py` 437-439). -/
def update_internal_node_key (nd : Node) (old_key new_key : Nat) : Node :=
  set_internal_node_key nd (internal_node_find_child nd old_key) new_key

/-- Python `range(a, b, -1)` for naturals: `[a, a-1, ..., b+1]`
(empty when `a ≤ b`). -/
def rangeDesc (a b : Nat) : List Nat := (List.range' (b + 1) (a - b)).reverse

/-- The cell-shifting loop of `internal_node_insert` (`db.py` 428-432),
iterated over `range(original_num_keys, index, -1)`: copy whole cell
`i-1` over cell `i`.  The loop reads and writes only this node, and each
read is of a not-yet-overwritten cell, so it is a pure node
transformation. -/
def internalShiftLoop (nd : Node) : List Nat → Node
  | [] => nd
  | i :: rest =>
    internalShiftLoop
      { nd with icells := fun j => if j = i then nd.icells (i - 1) else nd.icells j } rest

/-! ## Internal insert and split (`db.py` lines 400-435, 441-498)

The mutual recursion of the source is embedded with a fuel parameter
consumed on every mutual call. -/

mutual

/-- `internal_node_insert(table, parent_page_num, child_page_num)`
(`db.py` 400-435). -/
def internal_node_insert : Nat → Nat → Nat → M Unit
  | 0, _, _ => outOfFuel
  | fuel + 1, parent_page_num, child_page_num => do
    let parent ← getPage parent_page_num
    let _child ← getPage child_page_num
    let child_max_key ← get_node_max_key fuel child_page_num
    let index := internal_node_find_child parent child_max_key
    let original_num_keys := internal_node_num_keys parent
    if original_num_keys ≥ INTERNAL_NODE_MAX_KEYS then
      internal_node_split_and_insert fuel parent_page_num child_page_num
    else do
      let right_child_page_num := internal_node_right_child parent
      if right_child_page_num = INVALID_PAGE_NUM then
        updPage parent_page_num (fun nd => set_internal_node_right_child nd child_page_num)
      else do
        let _right_child ← getPage right_child_page_num
        updPage parent_page_num (fun nd => set_internal_node_num_keys nd (original_num_keys + 1))
        let right_max ← get_node_max_key fuel right_child_page_num
        if child_max_key > right_max then do
          -- Replace right child
          updPage parent_page_num
            (fun nd => set_internal_node_child nd original_num_keys right_child_page_num)
          let right_max2 ← get_node_max_key fuel right_child_page_num
          updPage parent_page_num
            (fun nd => set_internal_node_key nd original_num_keys right_max2)
          updPage parent_page_num
            (fun nd => set_internal_node_right_child nd child_page_num)
        else do
          -- Make room for new cell
          updPage parent_page_num
            (fun nd => internalShiftLoop nd (rangeDesc original_num_keys index))
          updPage parent_page_num (fun nd => set_internal_node_child nd index child_page_num)
          updPage parent_page_num (fun nd => set_internal_node_key nd index child_max_key)

/-- The child-moving loop of `internal_node_split_and_insert`
(`db.py` 473-481) over `range(INTERNAL_NODE_MAX_KEYS-1,
INTERNAL_NODE_MAX_KEYS//2, -1)`; threads the running `old_num_keys`
local and returns its final value. -/
def internalMoveLoop : Nat → Nat → Nat → Nat → List Nat → M Nat
  | 0, _, _, _, _ => outOfFuel
  | _fuel + 1, _, _, old_num_keys, [] => pure old_num_keys
  | fuel + 1, old_page_num, new_page_num, old_num_keys, i :: rest => do
    let old_node ← readPage old_page_num
    let cur_page_num ← liftE (internal_node_child old_node i)
    let _cur ← getPage cur_page_num
    internal_node_insert fuel new_page_num cur_page_num
    updPage cur_page_num (fun nd => set_node_parent nd new_page_num)
    let old_num_keys2 := old_num_keys - 1
    updPage old_page_num (fun nd => set_internal_node_num_keys nd old_num_keys2)
    internalMoveLoop fuel old_page_num new_page_num old_num_keys2 rest

/-- `internal_node_split_and_insert(table, parent_page_num,
child_page_num)` (`db.py` 441-498). -/
def internal_node_split_and_insert : Nat → Nat → Nat → M Unit
  | 0, _, _ => outOfFuel
  | fuel + 1, parent_page_num, child_page_num => do
    let old_node0 ← getPage parent_page_num
    let old_max ← get_node_max_key fuel parent_page_num
    let _child ← getPage child_page_num
    let child_max ← get_node_max_key fuel child_page_num
    let new_page_num ← getUnused
    let splitting_root := is_node_root old_node0
    let pages_pair ←
      if splitting_root then do
        create_new_root fuel new_page_num
        let parentNd ← readPage root_page_num
        let old_pn ← liftE (internal_node_child parentNd 0)
        let _old ← getPage old_pn
        pure (old_pn, root_page_num)
      else do
        let parent_pn := node_parent old_node0
        let _parent ← getPage parent_pn
        let _new ← getPage new_page_num
        updPage new_page_num initialize_internal_node
        pure (parent_page_num, parent_pn)
    let old_page_num := pages_pair.1
    let parent_pn := pages_pair.2
    let old_nd1 ← readPage old_page_num
    let old_num_keys := internal_node_num_keys old_nd1
    let cur_page_num := internal_node_right_child old_nd1
    let _cur ← getPage cur_page_num
    -- First put right child into new node
    internal_node_insert fuel new_page_num cur_page_num
    updPage cur_page_num (fun nd => set_node_parent nd new_page_num)
    updPage old_page_num (fun nd => set_internal_node_right_child nd INVALID_PAGE_NUM)
    -- Move upper half of keys to new node
    let onk ← internalMoveLoop fuel old_page_num new_page_num old_num_keys
      (rangeDesc (INTERNAL_NODE_MAX_KEYS - 1) (INTERNAL_NODE_MAX_KEYS / 2))
    let old_nd2 ← readPage old_page_num
    let demoted ← liftE (internal_node_child old_nd2 (onk - 1))
    updPage old_page_num (fun nd => set_internal_node_right_child nd demoted)
    updPage old_page_num (fun nd => set_internal_node_num_keys nd (onk - 1))
    let max_after_split ← get_node_max_key fuel old_page_num
    let dest_page_num := if child_max < max_after_split then old_page_num else new_page_num
    internal_node_insert fuel dest_page_num child_page_num
    updPage child_page_num (fun nd => set_node_parent nd dest_page_num)
    let old_max_now ← get_node_max_key fuel old_page_num
    updPage parent_pn (fun nd => update_internal_node_key nd old_max old_max_now)
    if splitting_root then pure ()
    else do
      let old_nd3 ← readPage old_page_num
      internal_node_insert fuel (node_parent old_nd3) new_page_num
      let _new2 ← getPage new_page_num
      let old_nd4 ← readPage old_page_num
      updPage new_page_num (fun nd => set_node_parent nd (node_parent old_nd4))

end

/-! ## Leaf insert and split (`db.py` lines 500-565) -/

/-- One iteration of the cell-distribution loop (`db.py` 514-533): pick
the destination node and the slot within it, then write either the
incoming `(key, value)` (the `pack_into` plus `serialize_row` pair) or a
whole copied cell of the old node. -/
def leafSplitIter (old_pn new_pn cell_num key : Nat) (value : Row) (i : Nat) : M Unit := do
  let dest_pn := if i ≥ LEAF_NODE_LEFT_SPLIT_COUNT then new_pn else old_pn
  let index_within := i % LEAF_NODE_LEFT_SPLIT_COUNT
  if i = cell_num then
    updPage dest_pn (fun nd => set_leaf_node_cell nd index_within { key := key, value := value })
  else if i > cell_num then do
    let old_nd ← readPage old_pn
    updPage dest_pn (fun nd => set_leaf_node_cell nd index_within (leaf_node_cell old_nd (i - 1)))
  else do
    let old_nd ← readPage old_pn
    updPage dest_pn (fun nd => set_leaf_node_cell nd index_within (leaf_node_cell old_nd i))

def leafSplitLoop (old_pn new_pn cell_num key : Nat) (value : Row) : List Nat → M Unit
  | [] => pure ()
  | i :: rest => do
    leafSplitIter old_pn new_pn cell_num key value i
    leafSplitLoop old_pn new_pn cell_num key value rest

/-- `leaf_node_split_and_insert(cursor, key, value)` (`db.py` 500-546). -/
def leaf_node_split_and_insert (fuel : Nat) (cursor : Cursor) (key : Nat) (value : Row) :
    M Unit := do
  let _old_node ← getPage cursor.page_num
  let old_max ← get_node_max_key fuel cursor.page_num
  let new_page_num ← getUnused
  let _new_node ← getPage new_page_num
  updPage new_page_num initialize_leaf_node
  let old_nd0 ← readPage cursor.page_num
  updPage new_page_num (fun nd => set_node_parent nd (node_parent old_nd0))
  let old_nd1 ← readPage cursor.page_num
  updPage new_page_num (fun nd => set_leaf_node_next_leaf nd (leaf_node_next_leaf old_nd1))
  updPage cursor.page_num (fun nd => set_leaf_node_next_leaf nd new_page_num)
  leafSplitLoop cursor.page_num new_page_num cursor.cell_num key value
    ((List.range (LEAF_NODE_MAX_CELLS + 1)).reverse)
  updPage cursor.page_num (fun nd => set_leaf_node_num_cells nd LEAF_NODE_LEFT_SPLIT_COUNT)
  updPage new_page_num (fun nd => set_leaf_node_num_cells nd LEAF_NODE_RIGHT_SPLIT_COUNT)
  let old_nd2 ← readPage cursor.page_num
  if is_node_root old_nd2 then
    create_new_root fuel new_page_num
  else do
    let parent_page_num := node_parent old_nd2
    let new_max ← get_node_max_key fuel cursor.page_num
    let _parent ← getPage parent_page_num
    updPage parent_page_num (fun nd => update_internal_node_key nd old_max new_max)
    internal_node_insert fuel parent_page_num new_page_num

/-- The cell-shifting loop of `leaf_node_insert` (`db.py` 557-561) over
`range(num_cells, cursor.cell_num, -1)`: copy whole cell `i-1` over cell
`i` within one node. -/
def leafShiftLoop (nd : Node) : List Nat → Node
  | [] => nd
  | i :: rest => leafShiftLoop (set_leaf_node_cell nd i (nd.leafCells (i - 1))) rest

/-- `leaf_node_insert(cursor, key, value)` (`db.py` 548-565). -/
def leaf_node_insert (fuel : Nat) (cursor : Cursor) (key : Nat) (value : Row) : M Unit := do
  let node ← getPage cursor.page_num
  let num_cells := leaf_node_num_cells node
  if num_cells ≥ LEAF_NODE_MAX_CELLS then
    leaf_node_split_and_insert fuel cursor key value
  else do
    if cursor.cell_num < num_cells then
      updPage cursor.page_num (fun nd => leafShiftLoop nd (rangeDesc num_cells cursor.cell_num))
    else pure ()
    updPage cursor.page_num (fun nd => set_leaf_node_num_cells nd (num_cells + 1))
    updPage cursor.page_num (fun nd => set_leaf_node_key nd cursor.cell_num key)
    updPage cursor.page_num (fun nd => set_leaf_node_value nd cursor.cell_num value)

/-! ## Cursor operations and executors (`db.py` lines 569-616) -/

/-- `table_start(table)` (`db.py` 569-574). -/
def table_start (fuel : Nat) : M Cursor := do
  let cursor ← table_find fuel 0
  let node ← getPage cursor.page_num
  pure { cursor with end_of_table := leaf_node_num_cells node = 0 }

/-- `cursor_advance(cursor)` (`db.py` 576-585). -/
def cursor_advance (cursor : Cursor) : M Cursor := do
  let node ← getPage cursor.page_num
  let cell_num := cursor.cell_num + 1
  if cell_num ≥ leaf_node_num_cells node then
    let next_page := leaf_node_next_leaf node
    if next_page = 0 then
      pure { cursor with cell_num := cell_num, end_of_table := true }
    else
      pure { cursor with page_num := next_page, cell_num := 0 }
  else
    pure { cursor with cell_num := cell_num }

/-- `execute_insert(statement, table)` (`db.py` 587-600). -/
def execute_insert (fuel : Nat) (row : Row) : M ExecuteResult := do
  let key := row.id
  let cursor ← table_find fuel key
  let node ← getPage cursor.page_num
  let num_cells := leaf_node_num_cells node
  if cursor.cell_num < num_cells ∧ leaf_node_key node cursor.cell_num = key then
    pure ExecuteResult.DUPLICATE_KEY
  else do
    leaf_node_insert fuel cursor key row
    pure ExecuteResult.SUCCESS

/-- The `while not cursor.end_of_table` loop of `execute_select`
(`db.py` 604-609), accumulating the printed rows.  The printed row is
`deserialize_row` of the cell's value bytes; in the structural model
that is the stored row (`C6` relates the two through the byte codec). -/
def selectLoop : Nat → Cursor → List Row → M (List Row)
  | 0, _, _ => outOfFuel
  | fuel + 1, cursor, acc =>
    if cursor.end_of_table then pure acc.reverse
    else do
      let node ← getPage cursor.page_num
      let row := (leaf_node_cell node cursor.cell_num).value
      let cursor2 ← cursor_advance cursor
      selectLoop fuel cursor2 (row :: acc)

/-- `execute_select(statement, table)` (`db.py` 602-610): the list of
rows printed, in order. -/
def execute_select (fuel : Nat) : M (List Row) := do
  let cursor ← table_start fuel
  selectLoop fuel cursor []

/-! ## Table open and statement sequencing (`db.py` lines 150-166, 681-713) -/

/-- The state before any page exists (a new, empty database file). -/
def emptyDb : Db := { pages := fun _ => zeroNode, num_pages := 0 }

/-- `Table.__init__` on a new database (`db.py` 150-159): materialise
page 0, initialise it as a leaf, mark it root. -/
def table_open : M Unit := do
  let _root ← getPage root_page_num
  updPage root_page_num initialize_leaf_node
  updPage root_page_num (fun nd => set_node_root nd true)

/-- The freshly opened database. -/
def freshDb : Db :=
  { pages := fun m => if m = 0 then set_node_root (initialize_leaf_node zeroNode) true else zeroNode,
    num_pages := 1 }

theorem dbExt (a b : Db) (h1 : ∀ m, a.pages m = b.pages m) (h2 : a.num_pages = b.num_pages) :
    a = b := by
  cases a
  cases b
  congr 1
  exact funext h1

theorem table_open_emptyDb : table_open emptyDb = .ok ((), freshDb) := by
  have h : freshDb =
      Db.upd (Db.upd { emptyDb with num_pages := 1 } 0 initialize_leaf_node) 0
        (fun nd => set_node_root nd true) := by
    apply dbExt
    · intro m
      by_cases hm : m = 0 <;> simp [Db.upd, hm, emptyDb, freshDb]
    · rfl
  rw [h]
  rfl

/-- Run a list of insert statements in order (each one an accepted
`insert`, dispatched through `execute_statement` to `execute_insert`). -/
def runInserts (fuel : Nat) : List Row → M Unit
  | [] => pure ()
  | row :: rest => do
    let _ ← execute_insert fuel row
    runInserts fuel rest

/-! # Helper lemmas for the row codec -/

theorem dropWhileNul_eq_self (l : List Nat) (h : ∀ c ∈ l, c ≠ 0) :
    l.dropWhile (fun c => c == 0) = l := by
  cases l with
  | nil => rfl
  | cons a t =>
    have ha : (a == 0) = false := by
      simpa using h a (List.mem_cons_self a t)
    simp [List.dropWhile_cons, ha]

theorem dropWhileNul_replicate_append (m : Nat) (x : List Nat) :
    (List.replicate m 0 ++ x).dropWhile (fun c => c == 0) =
      x.dropWhile (fun c => c == 0) := by
  induction m with
  | zero => rfl
  | succ n ih =>
    rw [List.replicate_succ]
    simp [List.dropWhile_cons, ih]

theorem rstripNul_append_replicate (u : List Nat) (k : Nat) (h : ∀ c ∈ u, c ≠ 0) :
    rstripNul (u ++ List.replicate k 0) = u := by
  unfold rstripNul
  rw [List.reverse_append, List.reverse_replicate, dropWhileNul_replicate_append,
    dropWhileNul_eq_self u.reverse (fun c hc => h c (List.mem_reverse.mp hc)),
    List.reverse_reverse]

theorem unpackU32LE_packU32LE (n : Nat) (h : n < 2 ^ 32) :
    unpackU32LE (packU32LE n) = n := by
  unfold unpackU32LE packU32LE
  simp only []
  omega

theorem pyEncodeAscii_of_ascii (s : List Nat) (h : ∀ c ∈ s, c < 128) :
    pyEncodeAscii s = some s := by
  unfold pyEncodeAscii
  rw [if_pos (List.all_eq_true.mpr (fun c hc => decide_eq_true (h c hc)))]

theorem pyDecodeAscii_of_ascii (s : List Nat) (h : ∀ c ∈ s, c < 128) :
    pyDecodeAscii s = some s := by
  unfold pyDecodeAscii
  rw [if_pos (List.all_eq_true.mpr (fun c hc => decide_eq_true (h c hc)))]

theorem packBytes_of_le (n : Nat) (bs : List Nat) (h : bs.length ≤ n) :
    packBytes n bs = bs ++ List.replicate (n - bs.length) 0 := by
  unfold packBytes
  rw [List.take_of_length_le h]

theorem packBytes_length (n : Nat) (bs : List Nat) (h : bs.length ≤ n) :
    (packBytes n bs).length = n := by
  unfold packBytes
  simp [List.length_take, List.length_replicate]
  omega

/-- C6: for a row whose username and email are ASCII, NUL-free and within
32 and 255 characters (and whose id fits a `u32`, else no bytes are
produced), `serialize_row` yields exactly the 291-byte slab
`id (4 LE bytes) ∥ username NUL-padded to 32 ∥ email NUL-padded to 255`,
and `deserialize_row` of those bytes restores the original row. -/
theorem C6_row_codec_roundtrip (row : Row)
    (hid : row.id < 2 ^ 32)
    (hu128 : ∀ c ∈ row.username, c < 128)
    (hulen : row.username.length ≤ COLUMN_USERNAME_SIZE)
    (hu0 : ∀ c ∈ row.username, c ≠ 0)
    (he128 : ∀ c ∈ row.email, c < 128)
    (helen : row.email.length ≤ COLUMN_EMAIL_SIZE)
    (he0 : ∀ c ∈ row.email, c ≠ 0) :
    serialize_row row =
      some (packU32LE row.id ++
        (row.username ++ List.replicate (COLUMN_USERNAME_SIZE - row.username.length) 0) ++
        (row.email ++ List.replicate (COLUMN_EMAIL_SIZE - row.email.length) 0)) ∧
    ∀ bs, serialize_row row = some bs →
      bs.length = ROW_SIZE ∧ deserialize_row bs = some row := by
  have hU := packBytes_of_le COLUMN_USERNAME_SIZE row.username hulen
  have hE := packBytes_of_le COLUMN_EMAIL_SIZE row.email helen
  have h1 := pyEncodeAscii_of_ascii _ hu128
  have h2 := pyEncodeAscii_of_ascii _ he128
  have hplen : (packU32LE row.id).length = 4 := by simp [packU32LE]
  have hUlen : (row.username ++
      List.replicate (COLUMN_USERNAME_SIZE - row.username.length) 0).length =
      COLUMN_USERNAME_SIZE := by
    simp only [List.length_append, List.length_replicate]
    omega
  have hElen : (row.email ++
      List.replicate (COLUMN_EMAIL_SIZE - row.email.length) 0).length =
      COLUMN_EMAIL_SIZE := by
    simp only [List.length_append, List.length_replicate]
    omega
  have hser : serialize_row row =
      some (packU32LE row.id ++
        (row.username ++ List.replicate (COLUMN_USERNAME_SIZE - row.username.length) 0) ++
        (row.email ++ List.replicate (COLUMN_EMAIL_SIZE - row.email.length) 0)) := by
    simp only [serialize_row, h1, h2]
    rw [if_pos hid, hU, hE]
  refine ⟨hser, ?_⟩
  intro bs hbs
  rw [hser] at hbs
  injection hbs with hbs
  subst hbs
  have hlenBS : (packU32LE row.id ++
      (row.username ++ List.replicate (COLUMN_USERNAME_SIZE - row.username.length) 0) ++
      (row.email ++ List.replicate (COLUMN_EMAIL_SIZE - row.email.length) 0)).length =
      ROW_SIZE := by
    simp only [List.length_append, hplen, hUlen, hElen, ROW_SIZE]
  refine ⟨hlenBS, ?_⟩
  have e1 : packU32LE row.id ++
      (row.username ++ List.replicate (COLUMN_USERNAME_SIZE - row.username.length) 0) ++
      (row.email ++ List.replicate (COLUMN_EMAIL_SIZE - row.email.length) 0) =
      packU32LE row.id ++
      ((row.username ++ List.replicate (COLUMN_USERNAME_SIZE - row.username.length) 0) ++
       (row.email ++ List.replicate (COLUMN_EMAIL_SIZE - row.email.length) 0)) := by
    rw [List.append_assoc]
  have htake4 : (packU32LE row.id ++
      (row.username ++ List.replicate (COLUMN_USERNAME_SIZE - row.username.length) 0) ++
      (row.email ++ List.replicate (COLUMN_EMAIL_SIZE - row.email.length) 0)).take 4 =
      packU32LE row.id := by
    rw [e1]
    exact List.take_left' hplen
  have hdrop4 : (packU32LE row.id ++
      (row.username ++ List.replicate (COLUMN_USERNAME_SIZE - row.username.length) 0) ++
      (row.email ++ List.replicate (COLUMN_EMAIL_SIZE - row.email.length) 0)).drop 4 =
      (row.username ++ List.replicate (COLUMN_USERNAME_SIZE - row.username.length) 0) ++
      (row.email ++ List.replicate (COLUMN_EMAIL_SIZE - row.email.length) 0) := by
    rw [e1]
    exact List.drop_left' hplen
  have hpUlen : (packU32LE row.id ++
      (row.username ++ List.replicate (COLUMN_USERNAME_SIZE - row.username.length) 0)).length =
      4 + COLUMN_USERNAME_SIZE := by
    rw [List.length_append, hplen, hUlen]
  have hdropE : (packU32LE row.id ++
      (row.username ++ List.replicate (COLUMN_USERNAME_SIZE - row.username.length) 0) ++
      (row.email ++ List.replicate (COLUMN_EMAIL_SIZE - row.email.length) 0)).drop
        (4 + COLUMN_USERNAME_SIZE) =
      row.email ++ List.replicate (COLUMN_EMAIL_SIZE - row.email.length) 0 :=
    List.drop_left' hpUlen
  have hUascii : ∀ c ∈ row.username ++
      List.replicate (COLUMN_USERNAME_SIZE - row.username.length) 0, c < 128 := by
    intro c hc
    rcases List.mem_append.mp hc with h | h
    · exact hu128 c h
    · have := List.eq_of_mem_replicate h
      omega
  have hEascii : ∀ c ∈ row.email ++
      List.replicate (COLUMN_EMAIL_SIZE - row.email.length) 0, c < 128 := by
    intro c hc
    rcases List.mem_append.mp hc with h | h
    · exact he128 c h
    · have := List.eq_of_mem_replicate h
      omega
  unfold deserialize_row
  rw [if_pos hlenBS, hdrop4]
  rw [List.take_left' hUlen, hdropE, List.take_of_length_le (le_of_eq hElen),
    pyDecodeAscii_of_ascii _ hUascii, pyDecodeAscii_of_ascii _ hEascii]
  simp only [htake4, unpackU32LE_packU32LE row.id hid,
    rstripNul_append_replicate _ _ hu0, rstripNul_append_replicate _ _ he0]

/-- Witness for C6 at the concrete row `(1, "a", "b")`. -/
theorem C6_row_codec_roundtrip_witness :
    serialize_row { id := 1, username := [97], email := [98] } =
      some (packU32LE 1 ++
        ([97] ++ List.replicate (COLUMN_USERNAME_SIZE - 1) 0) ++
        ([98] ++ List.replicate (COLUMN_EMAIL_SIZE - 1) 0)) ∧
    ∀ bs, serialize_row { id := 1, username := [97], email := [98] } = some bs →
      bs.length = ROW_SIZE ∧
      deserialize_row bs = some { id := 1, username := [97], email := [98] } :=
  C6_row_codec_roundtrip { id := 1, username := [97], email := [98] }
    (by decide) (by decide) (by decide) (by decide) (by decide) (by decide) (by decide)

/-! # C10: lines the parser accepts whose row crashes serialize_row -/

/-- C10: `insert 4294967296 a b` (id one past the `u32` range) and
`insert 1 é b` (non-ASCII username of length 1) are both accepted by
`prepare_statement` with SUCCESS, yet `serialize_row` on the resulting
row raises (returns `none`) instead of any typed error result — the
parser only bounds the id from below and only checks string length. -/
theorem C10_accepted_insert_crashes_serialize :
    (prepare_statement
        [105, 110, 115, 101, 114, 116, 32, 52, 50, 57, 52, 57, 54, 55, 50, 57, 54, 32, 97, 32, 98] =
      (PrepareResult.SUCCESS,
        some (Statement.insert { id := 4294967296, username := [97], email := [98] })) ∧
     serialize_row { id := 4294967296, username := [97], email := [98] } = none ∧
     2 ^ 32 ≤ (4294967296 : Nat)) ∧
    (prepare_statement [105, 110, 115, 101, 114, 116, 32, 49, 32, 233, 32, 98] =
      (PrepareResult.SUCCESS,
        some (Statement.insert { id := 1, username := [233], email := [98] })) ∧
     serialize_row { id := 1, username := [233], email := [98] } = none ∧
     [233].length ≤ COLUMN_USERNAME_SIZE) := by
  refine ⟨⟨?_, ?_, by decide⟩, ⟨?_, ?_, by decide⟩⟩ <;> decide

/-! # C8: prepare_statement on insert lines -/

/-- C8: on an insert line (`"insert"`-prefixed input), `prepare_statement`
returns SYNTAX_ERROR when the token count is not 4 or the id token is not
an integer; NEGATIVE_ID when the id parses negative; STRING_TOO_LONG when
(id non-negative and) the username exceeds 32 characters or the email
exceeds 255; and SUCCESS otherwise — so a 32-character username and a
255-character email are accepted. -/
theorem C8_prepare_insert (input : List Nat) (h : kwInsert.isPrefixOf input) :
    ((pySplit input).length ≠ 4 →
      (prepare_statement input).1 = PrepareResult.SYNTAX_ERROR) ∧
    (∀ t0 i u e, pySplit input = [t0, i, u, e] → pyInt i = none →
      (prepare_statement input).1 = PrepareResult.SYNTAX_ERROR) ∧
    (∀ t0 i u e n, pySplit input = [t0, i, u, e] → pyInt i = some n → n < 0 →
      (prepare_statement input).1 = PrepareResult.NEGATIVE_ID) ∧
    (∀ t0 i u e n, pySplit input = [t0, i, u, e] → pyInt i = some n → 0 ≤ n →
      u.length > COLUMN_USERNAME_SIZE →
      (prepare_statement input).1 = PrepareResult.STRING_TOO_LONG) ∧
    (∀ t0 i u e n, pySplit input = [t0, i, u, e] → pyInt i = some n → 0 ≤ n →
      u.length ≤ COLUMN_USERNAME_SIZE → e.length > COLUMN_EMAIL_SIZE →
      (prepare_statement input).1 = PrepareResult.STRING_TOO_LONG) ∧
    (∀ t0 i u e n, pySplit input = [t0, i, u, e] → pyInt i = some n → 0 ≤ n →
      u.length ≤ COLUMN_USERNAME_SIZE → e.length ≤ COLUMN_EMAIL_SIZE →
      prepare_statement input =
        (PrepareResult.SUCCESS,
         some (Statement.insert { id := n.toNat, username := u, email := e }))) := by
  refine ⟨?_, ?_, ?_, ?_, ?_, ?_⟩
  · intro hlen
    unfold prepare_statement
    rw [if_pos h]
    rcases hps : pySplit input with _ | ⟨t0, _ | ⟨i, _ | ⟨u, _ | ⟨e, _ | ⟨x, rest⟩⟩⟩⟩⟩ <;>
      first
        | rfl
        | (exfalso; apply hlen; rw [hps]; rfl)
  · intro t0 i u e hps hint
    simp [prepare_statement, h, hps, hint]
  · intro t0 i u e n hps hint hneg
    simp [prepare_statement, h, hps, hint, hneg]
  · intro t0 i u e n hps hint hpos hlong
    simp [prepare_statement, h, hps, hint, not_lt.mpr hpos, hlong]
  · intro t0 i u e n hps hint hpos hok hlong
    simp [prepare_statement, h, hps, hint, not_lt.mpr hpos, not_lt.mpr hok, hlong]
  · intro t0 i u e n hps hint hpos hu he
    simp [prepare_statement, h, hps, hint, not_lt.mpr hpos, not_lt.mpr hu, not_lt.mpr he]

/-- Witness for C8: the SUCCESS case at `insert 7 <32 a's> <255 b's>`,
with the hypotheses discharged concretely. -/
theorem C8_prepare_insert_witness :
    prepare_statement
        ([105, 110, 115, 101, 114, 116, 32, 55, 32] ++ List.replicate 32 97 ++
          (32 :: List.replicate 255 98)) =
      (PrepareResult.SUCCESS,
       some (Statement.insert
         { id := (7 : Int).toNat, username := List.replicate 32 97,
           email := List.replicate 255 98 })) := by
  have h := C8_prepare_insert
    ([105, 110, 115, 101, 114, 116, 32, 55, 32] ++ List.replicate 32 97 ++
      (32 :: List.replicate 255 98)) (by decide)
  exact h.2.2.2.2.2 [105, 110, 115, 101, 114, 116] [55] (List.replicate 32 97)
    (List.replicate 255 98) 7 (by decide) (by decide) (by decide) (by decide) (by decide)

/-! # C7: Pager.get_page bounds, page size, and num_pages monotonicity -/

/-- C7: `get_page(n)` is fatal exactly when `n > TABLE_MAX_PAGES`; for
`n ≤ TABLE_MAX_PAGES` (on a pager satisfying the cache invariant) it
returns a `PAGE_SIZE` buffer and leaves `num_pages = max (old num_pages)
(n+1)`, preserving the invariant; `num_pages` never decreases, and
`flush` leaves it unchanged. -/
theorem C7_get_page_spec (p : Pager) (n : Nat) :
    (p.get_page n = .error () ↔ n > TABLE_MAX_PAGES) ∧
    (PagerInv p → n ≤ TABLE_MAX_PAGES →
      ∃ page p2, p.get_page n = .ok (page, p2) ∧
        page.length = PAGE_SIZE ∧
        p2.num_pages = max p.num_pages (n + 1) ∧
        PagerInv p2 ∧
        p.num_pages ≤ p2.num_pages) ∧
    (∀ m q, p.flush m = .ok q → q.num_pages = p.num_pages) := by
  refine ⟨⟨?_, ?_⟩, ?_, ?_⟩
  · intro he
    by_contra hn
    unfold Pager.get_page at he
    rw [if_neg hn] at he
    rcases hpg : p.pages n with _ | page <;> rw [hpg] at he <;> dsimp only at he
    · split at he <;> exact Except.noConfusion he
    · exact Except.noConfusion he
  · intro hn
    unfold Pager.get_page
    rw [if_pos hn]
  · intro hinv hn
    have hn2 : ¬ n > TABLE_MAX_PAGES := by omega
    rcases hpg : p.pages n with _ | page
    · -- cache miss
      by_cases hge : n ≥ p.num_pages
      · refine ⟨List.replicate PAGE_SIZE 0,
          { p with
              pages := fun m => if m = n then some (List.replicate PAGE_SIZE 0) else p.pages m,
              num_pages := n + 1 },
          ?_, List.length_replicate _ _, ?_, ?_, ?_⟩
        · unfold Pager.get_page
          rw [if_neg hn2, hpg]
          dsimp only
          rw [if_neg (show ¬ n < p.num_pages by omega), if_pos hge]
        · show n + 1 = max p.num_pages (n + 1)
          omega
        · intro m pg hm
          dsimp only at hm ⊢
          by_cases hmn : m = n
          · rw [if_pos hmn] at hm
            injection hm with hm
            subst hm
            exact ⟨by omega, List.length_replicate _ _⟩
          · rw [if_neg hmn] at hm
            have := hinv m pg hm
            exact ⟨by omega, this.2⟩
        · show p.num_pages ≤ n + 1
          omega
      · have hlt : n < p.num_pages := by omega
        set page := (p.file.drop (n * PAGE_SIZE)).take PAGE_SIZE ++
          List.replicate (PAGE_SIZE - ((p.file.drop (n * PAGE_SIZE)).take PAGE_SIZE).length) 0
          with hpage
        have hplen : page.length = PAGE_SIZE := by
          rw [hpage]
          simp only [List.length_append, List.length_replicate]
          have := List.length_take_le PAGE_SIZE (p.file.drop (n * PAGE_SIZE))
          omega
        refine ⟨page,
          { p with pages := fun m => if m = n then some page else p.pages m },
          ?_, hplen, ?_, ?_, ?_⟩
        · unfold Pager.get_page
          rw [if_neg hn2, hpg]
          dsimp only
          rw [if_pos hlt, if_neg (show ¬ n ≥ p.num_pages by omega)]
        · show p.num_pages = max p.num_pages (n + 1)
          omega
        · intro m pg hm
          dsimp only at hm ⊢
          by_cases hmn : m = n
          · rw [if_pos hmn] at hm
            injection hm with hm
            subst hm
            exact ⟨by omega, hplen⟩
          · rw [if_neg hmn] at hm
            exact hinv m pg hm
        · exact le_refl _
    · -- cache hit
      have hm := hinv n page hpg
      refine ⟨page, p, ?_, hm.2, by omega, hinv, le_refl _⟩
      unfold Pager.get_page
      rw [if_neg hn2, hpg]
  · intro m q hq
    unfold Pager.flush at hq
    rcases hpg : p.pages m with _ | page <;> rw [hpg] at hq <;> dsimp only at hq
    · exact Except.noConfusion hq
    · injection hq with hq
      rw [← hq]

/-- Witness for C7 at the empty pager and page 0. -/
theorem C7_get_page_spec_witness :
    ∃ page p2,
      Pager.get_page { file := [], num_pages := 0, pages := fun _ => none } 0 =
        .ok (page, p2) ∧
      page.length = PAGE_SIZE ∧
      p2.num_pages = max ({ file := [], num_pages := 0, pages := fun _ => none } : Pager).num_pages (0 + 1) ∧
      PagerInv p2 ∧
      ({ file := [], num_pages := 0, pages := fun _ => none } : Pager).num_pages ≤ p2.num_pages :=
  (C7_get_page_spec { file := [], num_pages := 0, pages := fun _ => none } 0).2.1
    (fun n page h => Option.noConfusion h) (by decide)

/-! ## Instrumentation definitions used to state scenario claims -/

def mkRow (k : Nat) : Row := { id := k, username := [], email := [] }

/-- The state of a successful run (`emptyDb` on failure; used only to
phrase concrete-scenario theorems, always under a success conjunct). -/
def runStateOr (r : Except DbErr (Unit × Db)) : Db :=
  match r with
  | .ok (_, s) => s
  | .error _ => emptyDb

def isOkRun (r : Except DbErr (Unit × Db)) : Bool :=
  match r with
  | .ok _ => true
  | .error _ => false

/-- The ids printed by `execute_select`, `none` when it fails. -/
def selectIds (fuel : Nat) (s : Db) : Option (List Nat) :=
  match execute_select fuel s with
  | .ok (rows, _) => some (rows.map Row.id)
  | .error _ => none

/-! # Proof toolkit: running the state monad symbolically -/

theorem run_bind (x : M α) (f : α → M β) (s : Db) :
    (x >>= f) s = match x s with
      | .error e => .error e
      | .ok (a, t) => f a t := rfl

theorem run_bind_ok {x : M α} {s t : Db} {a : α} (f : α → M β) (h : x s = .ok (a, t)) :
    (x >>= f) s = f a t := by
  rw [run_bind, h]

theorem run_bind_error {x : M α} {s : Db} {e : DbErr} (f : α → M β) (h : x s = .error e) :
    (x >>= f) s = .error e := by
  rw [run_bind, h]

theorem run_pure (a : α) (s : Db) : (pure a : M α) s = .ok (a, s) := rfl

theorem run_readPage (p : Nat) (s : Db) : readPage p s = .ok (s.pages p, s) := rfl

theorem run_updPage (p : Nat) (f : Node → Node) (s : Db) :
    updPage p f s = .ok ((), s.upd p f) := rfl

theorem run_getUnused (s : Db) : getUnused s = .ok (s.num_pages, s) := rfl

theorem run_liftE_ok (a : α) (s : Db) : liftE (.ok a) s = .ok (a, s) := rfl

theorem run_liftE_error (e : DbErr) (s : Db) : liftE (α := α) (.error e) s = .error e := rfl

theorem run_outOfFuel (s : Db) : (outOfFuel : M α) s = .error .fuelOut := rfl

/-- `get_page` on an already materialised page: no state change. -/
theorem run_getPage_old {p : Nat} {s : Db} (h1 : p < s.num_pages)
    (h2 : p ≤ TABLE_MAX_PAGES) : getPage p s = .ok (s.pages p, s) := by
  unfold getPage
  rw [if_neg (by omega), if_neg (by omega)]

/-- `get_page` on a fresh page: `num_pages` grows to `p + 1`. -/
theorem run_getPage_new {p : Nat} {s : Db} (h1 : p ≥ s.num_pages)
    (h2 : p ≤ TABLE_MAX_PAGES) :
    getPage p s = .ok (s.pages p, { s with num_pages := p + 1 }) := by
  unfold getPage
  rw [if_neg (by omega), if_pos h1]

theorem upd_pages_self (s : Db) (p : Nat) (f : Node → Node) :
    (s.upd p f).pages p = f (s.pages p) := by
  unfold Db.upd
  simp

theorem upd_pages_ne (s : Db) (p : Nat) (f : Node → Node) (q : Nat) (h : q ≠ p) :
    (s.upd p f).pages q = s.pages q := by
  unfold Db.upd
  simp [h]

theorem upd_num_pages (s : Db) (p : Nat) (f : Node → Node) :
    (s.upd p f).num_pages = s.num_pages := rfl

/-! # Node and state extensionality, loop range helpers -/

theorem nodeExt (a b : Node)
    (h1 : a.nodeType = b.nodeType) (h2 : a.isRoot = b.isRoot) (h3 : a.parent = b.parent)
    (h4 : a.countField = b.countField) (h5 : a.linkField = b.linkField)
    (h6 : ∀ j, a.leafCells j = b.leafCells j) (h7 : ∀ j, a.icells j = b.icells j) :
    a = b := by
  cases a
  cases b
  congr 1 <;> first | assumption | exact funext h6 | exact funext h7

theorem upd_upd (s : Db) (p : Nat) (f g : Node → Node) :
    (s.upd p f).upd p g = s.upd p (fun nd => g (f nd)) := by
  apply dbExt
  · intro m
    unfold Db.upd
    dsimp only
    by_cases hm : m = p <;> simp [hm]
  · rfl

theorem upd_congr (s : Db) (p : Nat) (f g : Node → Node)
    (h : f (s.pages p) = g (s.pages p)) : s.upd p f = s.upd p g := by
  apply dbExt
  · intro m
    unfold Db.upd
    dsimp only
    by_cases hm : m = p <;> simp [hm]
    exact h
  · rfl

theorem rangeDesc_nil (hi lo : Nat) (h : hi ≤ lo) : rangeDesc hi lo = [] := by
  unfold rangeDesc
  rw [show hi - lo = 0 by omega]
  rfl

theorem rangeDesc_cons (hi lo : Nat) (h : lo < hi) :
    rangeDesc hi lo = hi :: rangeDesc (hi - 1) lo := by
  unfold rangeDesc
  rw [show hi - lo = (hi - 1 - lo) + 1 by omega, List.range'_concat, List.reverse_append]
  simp [show lo + 1 + (hi - 1 - lo) = hi by omega]

/-- Effect of the leaf shift loop over `range(hi, lo, -1)` (for `lo ≤ hi`):
cells in `(lo, hi]` receive their left neighbour, the rest are untouched;
no other field changes. -/
theorem leafShiftLoop_spec (nd : Node) (hi lo : Nat) (h : lo ≤ hi) :
    leafShiftLoop nd (rangeDesc hi lo) =
      { nd with leafCells := fun j =>
          if lo < j ∧ j ≤ hi then nd.leafCells (j - 1) else nd.leafCells j } := by
  induction hi generalizing nd with
  | zero =>
    rw [rangeDesc_nil 0 lo (by omega)]
    refine nodeExt _ _ rfl rfl rfl rfl rfl (fun j => ?_) (fun j => rfl)
    exact (if_neg (by omega)).symm
  | succ n ih =>
    by_cases hlo : lo = n + 1
    · subst hlo
      rw [rangeDesc_nil _ _ (le_refl _)]
      refine nodeExt _ _ rfl rfl rfl rfl rfl (fun j => ?_) (fun j => rfl)
      exact (if_neg (by omega)).symm
    · rw [rangeDesc_cons _ _ (by omega)]
      show leafShiftLoop (set_leaf_node_cell nd (n + 1) (nd.leafCells (n + 1 - 1)))
        (rangeDesc n lo) = _
      rw [ih _ (by omega)]
      refine nodeExt _ _ rfl rfl rfl rfl rfl (fun j => ?_) (fun j => rfl)
      simp only [set_leaf_node_cell]
      split_ifs <;> first | rfl | omega | (congr 1; omega)

/-- The node produced by the no-split branch of `leaf_node_insert`:
one more cell, the new `(key, value)` at `cell_num`, cells at and after
`cell_num` shifted right by one. -/
def leafInsertResult (nd : Node) (cell_num key : Nat) (value : Row) : Node :=
  { nd with
    countField := nd.countField + 1,
    leafCells := fun j =>
      if j < cell_num then nd.leafCells j
      else if j = cell_num then { key := key, value := value }
      else if j ≤ nd.countField then nd.leafCells (j - 1)
      else nd.leafCells j }

theorem leaf_node_insert_spec (fuel : Nat) (cursor : Cursor) (key : Nat) (value : Row)
    (s : Db) (hp400 : cursor.page_num ≤ TABLE_MAX_PAGES) (hpn : cursor.page_num < s.num_pages)
    (hnc : leaf_node_num_cells (s.pages cursor.page_num) < LEAF_NODE_MAX_CELLS)
    (hcn : cursor.cell_num ≤ leaf_node_num_cells (s.pages cursor.page_num)) :
    leaf_node_insert fuel cursor key value s =
      .ok ((), s.upd cursor.page_num
        (fun nd => leafInsertResult nd cursor.cell_num key value)) := by
  unfold leaf_node_insert
  rw [run_bind_ok _ (run_getPage_old hpn hp400)]
  simp only
  rw [if_neg (by omega)]
  by_cases hcase : cursor.cell_num < leaf_node_num_cells (s.pages cursor.page_num)
  · rw [if_pos hcase]
    rw [run_bind_ok _ (run_updPage _ _ _)]
    rw [run_bind_ok _ (run_updPage _ _ _)]
    rw [run_bind_ok _ (run_updPage _ _ _)]
    rw [run_updPage, upd_upd, upd_upd, upd_upd]
    rw [upd_congr _ _ _ (fun nd => leafInsertResult nd cursor.cell_num key value) ?_]
    rw [leafShiftLoop_spec _ _ _ (by omega)]
    refine nodeExt _ _ rfl rfl rfl rfl rfl (fun j => ?_) (fun j => rfl)
    simp only [set_leaf_node_value, set_leaf_node_key, set_leaf_node_num_cells,
      set_leaf_node_cell, leafInsertResult, leaf_node_num_cells]
    split_ifs <;> first | rfl | omega | (congr 1; omega)
  · have heq : cursor.cell_num = leaf_node_num_cells (s.pages cursor.page_num) := by omega
    rw [if_neg hcase]
    rw [run_bind_ok _ (run_pure _ _)]
    rw [run_bind_ok _ (run_updPage _ _ _)]
    rw [run_bind_ok _ (run_updPage _ _ _)]
    rw [run_updPage, upd_upd, upd_upd]
    rw [upd_congr _ _ _ (fun nd => leafInsertResult nd cursor.cell_num key value) ?_]
    refine nodeExt _ _ rfl rfl rfl rfl rfl (fun j => ?_) (fun j => rfl)
    simp only [set_leaf_node_value, set_leaf_node_key, set_leaf_node_num_cells,
      set_leaf_node_cell, leafInsertResult, leaf_node_num_cells]
    rw [leaf_node_num_cells] at heq
    split_ifs <;> first | rfl | omega | (congr 1; omega)

/-- Correctness of the leaf binary-search loop on a segment with strictly
ascending keys: the result is the least index in `[min_idx, max_idx)`
whose key is `≥ key` (bounded by `max_idx`). -/
theorem leafFindLoop_correct (nd : Node) (key : Nat) (gas : Nat) :
    ∀ min_idx max_idx, min_idx ≤ max_idx → max_idx - min_idx ≤ gas →
    (∀ i j, min_idx ≤ i → i < j → j < max_idx →
      leaf_node_key nd i < leaf_node_key nd j) →
    min_idx ≤ leafFindLoop nd key gas min_idx max_idx ∧
    leafFindLoop nd key gas min_idx max_idx ≤ max_idx ∧
    (∀ j, min_idx ≤ j → j < leafFindLoop nd key gas min_idx max_idx →
      leaf_node_key nd j < key) ∧
    (leafFindLoop nd key gas min_idx max_idx < max_idx →
      key ≤ leaf_node_key nd (leafFindLoop nd key gas min_idx max_idx)) := by
  induction gas with
  | zero =>
    intro min_idx max_idx hle hgas _
    have hmm : min_idx = max_idx := by omega
    unfold leafFindLoop
    exact ⟨le_refl _, by omega, fun j h1 h2 => by omega, fun h => by omega⟩
  | succ g ih =>
    intro min_idx max_idx hle hgas hsorted
    by_cases hstop : min_idx ≥ max_idx
    · unfold leafFindLoop
      rw [if_pos hstop]
      exact ⟨le_refl _, by omega, fun j h1 h2 => by omega, fun h => by omega⟩
    · have hlt : min_idx < max_idx := by omega
      have hmid1 : min_idx ≤ (min_idx + max_idx) / 2 := by omega
      have hmid2 : (min_idx + max_idx) / 2 < max_idx := by omega
      unfold leafFindLoop
      rw [if_neg hstop]
      by_cases heq : key = leaf_node_key nd ((min_idx + max_idx) / 2)
      · rw [if_pos heq]
        refine ⟨hmid1, by omega, ?_, fun _ => le_of_eq heq⟩
        intro j h1 h2
        calc leaf_node_key nd j < leaf_node_key nd ((min_idx + max_idx) / 2) :=
              hsorted j _ h1 h2 hmid2
          _ = key := heq.symm
      · rw [if_neg heq]
        by_cases hlo : key < leaf_node_key nd ((min_idx + max_idx) / 2)
        · rw [if_pos hlo]
          have := ih min_idx ((min_idx + max_idx) / 2) hmid1 (by omega)
            (fun i j h1 h2 h3 => hsorted i j h1 h2 (by omega))
          refine ⟨this.1, by omega, this.2.2.1, ?_⟩
          intro hr
          by_cases hr2 : leafFindLoop nd key g min_idx ((min_idx + max_idx) / 2) <
              (min_idx + max_idx) / 2
          · exact this.2.2.2 hr2
          · have : leafFindLoop nd key g min_idx ((min_idx + max_idx) / 2) =
                (min_idx + max_idx) / 2 := by omega
            rw [this]
            omega
        · rw [if_neg hlo]
          have hgt : leaf_node_key nd ((min_idx + max_idx) / 2) < key := by omega
          have := ih ((min_idx + max_idx) / 2 + 1) max_idx (by omega) (by omega)
            (fun i j h1 h2 h3 => hsorted i j (by omega) h2 h3)
          refine ⟨by omega, this.2.1, ?_, this.2.2.2⟩
          intro j h1 h2
          by_cases hj : j ≤ (min_idx + max_idx) / 2
          · by_cases hj2 : j = (min_idx + max_idx) / 2
            · rw [hj2]
              exact hgt
            · calc leaf_node_key nd j < leaf_node_key nd ((min_idx + max_idx) / 2) :=
                  hsorted j _ h1 (by omega) hmid2
                _ < key := hgt
          · exact this.2.2.1 j (by omega) h2

/-- Correctness of the internal-node halving loop on a segment with
strictly ascending keys: the least index whose key is `≥ key`. -/
theorem internalFindLoop_correct (nd : Node) (key : Nat) (gas : Nat) :
    ∀ min_idx max_idx, min_idx ≤ max_idx → max_idx - min_idx ≤ gas →
    (∀ i j, min_idx ≤ i → i < j → j < max_idx →
      internal_node_key nd i < internal_node_key nd j) →
    min_idx ≤ internalFindLoop nd key gas min_idx max_idx ∧
    internalFindLoop nd key gas min_idx max_idx ≤ max_idx ∧
    (∀ j, min_idx ≤ j → j < internalFindLoop nd key gas min_idx max_idx →
      internal_node_key nd j < key) ∧
    (internalFindLoop nd key gas min_idx max_idx < max_idx →
      key ≤ internal_node_key nd (internalFindLoop nd key gas min_idx max_idx)) := by
  induction gas with
  | zero =>
    intro min_idx max_idx hle hgas _
    have hmm : min_idx = max_idx := by omega
    unfold internalFindLoop
    exact ⟨le_refl _, by omega, fun j h1 h2 => by omega, fun h => by omega⟩
  | succ g ih =>
    intro min_idx max_idx hle hgas hsorted
    by_cases hstop : min_idx ≥ max_idx
    · unfold internalFindLoop
      rw [if_pos hstop]
      exact ⟨le_refl _, by omega, fun j h1 h2 => by omega, fun h => by omega⟩
    · have hlt : min_idx < max_idx := by omega
      have hmid1 : min_idx ≤ (min_idx + max_idx) / 2 := by omega
      have hmid2 : (min_idx + max_idx) / 2 < max_idx := by omega
      unfold internalFindLoop
      rw [if_neg hstop]
      by_cases hlo : key ≤ internal_node_key nd ((min_idx + max_idx) / 2)
      · rw [if_pos hlo]
        have := ih min_idx ((min_idx + max_idx) / 2) hmid1 (by omega)
          (fun i j h1 h2 h3 => hsorted i j h1 h2 (by omega))
        refine ⟨this.1, by omega, this.2.2.1, ?_⟩
        intro hr
        by_cases hr2 : internalFindLoop nd key g min_idx ((min_idx + max_idx) / 2) <
            (min_idx + max_idx) / 2
        · exact this.2.2.2 hr2
        · have : internalFindLoop nd key g min_idx ((min_idx + max_idx) / 2) =
              (min_idx + max_idx) / 2 := by omega
          rw [this]
          exact hlo
      · rw [if_neg hlo]
        have hgt : internal_node_key nd ((min_idx + max_idx) / 2) < key := by omega
        have := ih ((min_idx + max_idx) / 2 + 1) max_idx (by omega) (by omega)
          (fun i j h1 h2 h3 => hsorted i j (by omega) h2 h3)
        refine ⟨by omega, this.2.1, ?_, this.2.2.2⟩
        intro j h1 h2
        by_cases hj : j ≤ (min_idx + max_idx) / 2
        · by_cases hj2 : j = (min_idx + max_idx) / 2
          · rw [hj2]
            exact hgt
          · calc internal_node_key nd j < internal_node_key nd ((min_idx + max_idx) / 2) :=
                hsorted j _ h1 (by omega) hmid2
              _ < key := hgt
        · exact this.2.2.1 j (by omega) h2


/-! # Leaf split loop characterization -/

/-- The logical cell `i` of the `MAX+1` cells being distributed by
`leaf_node_split_and_insert`: the incoming pair at the cursor position,
cells shifted up by one above it. -/
def splitSourceCell (old : Node) (cell_num key : Nat) (value : Row) (i : Nat) : LeafCell :=
  if i = cell_num then { key := key, value := value }
  else if i > cell_num then old.leafCells (i - 1)
  else old.leafCells i

theorem list_range_reverse_succ (m : Nat) :
    (List.range (m + 1)).reverse = m :: (List.range m).reverse := by
  rw [List.range_succ, List.reverse_append]
  rfl

theorem leafSplitIter_spec (old_pn new_pn cell_num key : Nat) (value : Row) (i : Nat)
    (s : Db) :
    leafSplitIter old_pn new_pn cell_num key value i s =
      .ok ((), s.upd (if i ≥ LEAF_NODE_LEFT_SPLIT_COUNT then new_pn else old_pn)
        (fun nd => set_leaf_node_cell nd (i % LEAF_NODE_LEFT_SPLIT_COUNT)
          (splitSourceCell (s.pages old_pn) cell_num key value i))) := by
  unfold leafSplitIter splitSourceCell
  by_cases h1 : i = cell_num
  · rw [if_pos h1, if_pos h1, run_updPage]
  · rw [if_neg h1, if_neg h1]
    by_cases h2 : i > cell_num
    · rw [if_pos h2, if_pos h2]
      rw [run_bind_ok _ (run_readPage _ _), run_updPage]
      rfl
    · rw [if_neg h2, if_neg h2]
      rw [run_bind_ok _ (run_readPage _ _), run_updPage]
      rfl

/-- Effect of the cell-distribution loop over `range(m-1, -1, -1)`:
the first `min m LEFT` positions of the old node and (when `m > LEFT`)
the first `m - LEFT` positions of the new node receive the distributed
cells; no other page, field or cell changes. -/
theorem leafSplitLoop_spec (old_pn new_pn cell_num key : Nat) (value : Row) :
    ∀ (m : Nat) (s : Db), m ≤ LEAF_NODE_MAX_CELLS + 1 → old_pn ≠ new_pn →
    leafSplitLoop old_pn new_pn cell_num key value ((List.range m).reverse) s =
      .ok ((), { s with pages := (fun q =>
        if q = old_pn then
          { (s.pages old_pn) with leafCells := (fun j =>
              if j < m ∧ j < LEAF_NODE_LEFT_SPLIT_COUNT then
                splitSourceCell (s.pages old_pn) cell_num key value j
              else (s.pages old_pn).leafCells j) }
        else if q = new_pn then
          { (s.pages new_pn) with leafCells := (fun j =>
              if LEAF_NODE_LEFT_SPLIT_COUNT ≤ m ∧ j < m - LEAF_NODE_LEFT_SPLIT_COUNT then
                splitSourceCell (s.pages old_pn) cell_num key value
                  (j + LEAF_NODE_LEFT_SPLIT_COUNT)
              else (s.pages new_pn).leafCells j) }
        else s.pages q) }) := by
  have hL : LEAF_NODE_LEFT_SPLIT_COUNT = 7 := by decide
  have hM : LEAF_NODE_MAX_CELLS = 13 := by decide
  intro m
  induction m with
  | zero =>
    intro s _ hne
    show Except.ok ((), s) = _
    refine congrArg (fun d => Except.ok ((), d)) ?_
    refine dbExt _ _ (fun q => ?_) rfl
    dsimp only
    by_cases hq1 : q = old_pn
    · subst hq1
      rw [if_pos rfl]
      refine nodeExt _ _ rfl rfl rfl rfl rfl (fun j => ?_) (fun j => rfl)
      dsimp only
      exact (if_neg (by omega)).symm
    · rw [if_neg hq1]
      by_cases hq2 : q = new_pn
      · subst hq2
        rw [if_pos rfl]
        refine nodeExt _ _ rfl rfl rfl rfl rfl (fun j => ?_) (fun j => rfl)
        dsimp only
        exact (if_neg (by omega)).symm
      · rw [if_neg hq2]
  | succ m ih =>
    intro s hm hne
    rw [list_range_reverse_succ]
    unfold leafSplitLoop
    rw [run_bind_ok _ (leafSplitIter_spec old_pn new_pn cell_num key value m s)]
    rw [ih _ (by omega) hne]
    refine congrArg (fun d => Except.ok ((), d)) ?_
    by_cases hdest : m ≥ LEAF_NODE_LEFT_SPLIT_COUNT
    · rw [if_pos hdest]
      have holdpage : (s.upd new_pn
          (fun nd => set_leaf_node_cell nd (m % LEAF_NODE_LEFT_SPLIT_COUNT)
            (splitSourceCell (s.pages old_pn) cell_num key value m))).pages old_pn =
          s.pages old_pn := upd_pages_ne _ _ _ _ hne
      refine dbExt _ _ (fun q => ?_) rfl
      dsimp only
      by_cases hq1 : q = old_pn
      · subst hq1
        rw [if_pos rfl, if_pos rfl, holdpage]
        refine nodeExt _ _ rfl rfl rfl rfl rfl (fun j => ?_) (fun j => rfl)
        dsimp only
        split_ifs <;> first | rfl | omega
      · rw [if_neg hq1, if_neg hq1]
        by_cases hq2 : q = new_pn
        · subst hq2
          rw [if_pos rfl, if_pos rfl, holdpage, upd_pages_self]
          have hmod : m % LEAF_NODE_LEFT_SPLIT_COUNT = m - LEAF_NODE_LEFT_SPLIT_COUNT := by
            rw [hL] at hdest ⊢
            rw [hM] at hm
            omega
          refine nodeExt _ _ rfl rfl rfl rfl rfl (fun j => ?_) (fun j => rfl)
          simp only [set_leaf_node_cell, splitSourceCell]
          rw [hmod]
          split_ifs <;> first | rfl | omega | (congr 1; omega)
        · rw [if_neg hq2, if_neg hq2, upd_pages_ne _ _ _ _ hq2]
    · rw [if_neg hdest]
      have hmod : m % LEAF_NODE_LEFT_SPLIT_COUNT = m := by
        apply Nat.mod_eq_of_lt
        omega
      have hnewpage : (s.upd old_pn
          (fun nd => set_leaf_node_cell nd (m % LEAF_NODE_LEFT_SPLIT_COUNT)
            (splitSourceCell (s.pages old_pn) cell_num key value m))).pages new_pn =
          s.pages new_pn := upd_pages_ne _ _ _ _ (Ne.symm hne)
      have holdpage : (s.upd old_pn
          (fun nd => set_leaf_node_cell nd (m % LEAF_NODE_LEFT_SPLIT_COUNT)
            (splitSourceCell (s.pages old_pn) cell_num key value m))).pages old_pn =
          set_leaf_node_cell (s.pages old_pn) (m % LEAF_NODE_LEFT_SPLIT_COUNT)
            (splitSourceCell (s.pages old_pn) cell_num key value m) := upd_pages_self _ _ _
      refine dbExt _ _ (fun q => ?_) rfl
      dsimp only
      by_cases hq1 : q = old_pn
      · subst hq1
        rw [if_pos rfl, if_pos rfl, holdpage]
        refine nodeExt _ _ rfl rfl rfl rfl rfl (fun j => ?_) (fun j => rfl)
        simp only [set_leaf_node_cell, splitSourceCell]
        rw [hmod]
        split_ifs <;> first | rfl | omega | (congr 1; omega)
      · rw [if_neg hq1, if_neg hq1]
        by_cases hq2 : q = new_pn
        · subst hq2
          rw [if_pos rfl, if_pos rfl, hnewpage, holdpage]
          refine nodeExt _ _ rfl rfl rfl rfl rfl (fun j => ?_) (fun j => rfl)
          simp only [set_leaf_node_cell, splitSourceCell]
          rw [hmod]
          split_ifs <;> first | rfl | omega | (congr 1; omega)
        · rw [if_neg hq2, if_neg hq2, upd_pages_ne _ _ _ _ hq1]

/-! # get_node_max_key lemmas -/

theorem run_getPage_cases (p : Nat) (s : Db) :
    getPage p s = if p > TABLE_MAX_PAGES then .error .fatal
      else .ok (s.pages p, if p ≥ s.num_pages then { s with num_pages := p + 1 } else s) := rfl

theorem get_node_max_key_leaf (fuel : Nat) (p : Nat) (s : Db)
    (h : get_node_type (s.pages p) = NodeKind.LEAF) :
    get_node_max_key (fuel + 1) p s =
      .ok (leaf_node_key (s.pages p) (leaf_node_num_cells (s.pages p) - 1), s) := by
  unfold get_node_max_key
  rw [run_bind_ok _ (run_readPage _ _), h]
  rfl

theorem get_node_max_key_internal_step (fuel : Nat) (p : Nat) (s : Db)
    (h : get_node_type (s.pages p) = NodeKind.INTERNAL) :
    get_node_max_key (fuel + 1) p s =
      ((getPage (internal_node_right_child (s.pages p)) : M Node) >>= fun _ =>
        get_node_max_key fuel (internal_node_right_child (s.pages p))) s := by
  conv_lhs => unfold get_node_max_key
  rw [run_bind_ok _ (run_readPage _ _), h]

theorem get_node_max_key_zero (p : Nat) (s : Db) :
    get_node_max_key 0 p s = .error .fuelOut := rfl

/-- `get_node_max_key` never changes page contents, and `num_pages` can
only grow. -/
theorem get_node_max_key_frame (fuel : Nat) :
    ∀ p s k s', get_node_max_key fuel p s = .ok (k, s') →
      s'.pages = s.pages ∧ s.num_pages ≤ s'.num_pages := by
  induction fuel with
  | zero =>
    intro p s k s' h
    rw [get_node_max_key_zero] at h
    exact Except.noConfusion h
  | succ fuel ih =>
    intro p s k s' h
    rcases htype : get_node_type (s.pages p) with _ | _
    · rw [get_node_max_key_internal_step fuel p s htype] at h
      by_cases hcap : internal_node_right_child (s.pages p) > TABLE_MAX_PAGES
      · rw [run_bind_error _ (by rw [run_getPage_cases, if_pos hcap])] at h
        exact Except.noConfusion h
      · by_cases hnp : internal_node_right_child (s.pages p) ≥ s.num_pages
        · rw [run_bind_ok _ (run_getPage_new hnp (by omega))] at h
          have := ih _ _ _ _ h
          simp only at this
          exact ⟨this.1, by omega⟩
        · rw [run_bind_ok _ (run_getPage_old (by omega) (by omega))] at h
          exact ih _ _ _ _ h
    · rw [get_node_max_key_leaf fuel p s htype] at h
      injection h with h
      injection h with h1 h2
      subst h2
      exact ⟨rfl, le_refl _⟩

/-- The value computed by `get_node_max_key` depends only on page
contents, never on `num_pages`. -/
theorem get_node_max_key_pages_only (fuel : Nat) :
    ∀ p s1 k s1' s2, get_node_max_key fuel p s1 = .ok (k, s1') → s2.pages = s1.pages →
      ∃ s2', get_node_max_key fuel p s2 = .ok (k, s2') := by
  induction fuel with
  | zero =>
    intro p s1 k s1' s2 h _
    rw [get_node_max_key_zero] at h
    exact Except.noConfusion h
  | succ fuel ih =>
    intro p s1 k s1' s2 h hpg
    have htype2 : get_node_type (s2.pages p) = get_node_type (s1.pages p) := by rw [hpg]
    rcases htype : get_node_type (s1.pages p) with _ | _
    · rw [get_node_max_key_internal_step fuel p s1 htype] at h
      rw [get_node_max_key_internal_step fuel p s2 (htype2.trans htype)]
      rw [hpg]
      by_cases hcap : internal_node_right_child (s1.pages p) > TABLE_MAX_PAGES
      · rw [run_bind_error _ (by rw [run_getPage_cases, if_pos hcap])] at h
        exact Except.noConfusion h
      · have hstep1 : ∃ t1, ((getPage (internal_node_right_child (s1.pages p)) : M Node) >>= fun _ =>
            get_node_max_key fuel (internal_node_right_child (s1.pages p))) s1 =
            get_node_max_key fuel (internal_node_right_child (s1.pages p)) t1 ∧
            t1.pages = s1.pages := by
          by_cases hnp : internal_node_right_child (s1.pages p) ≥ s1.num_pages
          · exact ⟨_, run_bind_ok _ (run_getPage_new hnp (by omega)), rfl⟩
          · exact ⟨_, run_bind_ok _ (run_getPage_old (by omega) (by omega)), rfl⟩
        have hstep2 : ∃ t2, ((getPage (internal_node_right_child (s1.pages p)) : M Node) >>= fun _ =>
            get_node_max_key fuel (internal_node_right_child (s1.pages p))) s2 =
            get_node_max_key fuel (internal_node_right_child (s1.pages p)) t2 ∧
            t2.pages = s2.pages := by
          by_cases hnp : internal_node_right_child (s1.pages p) ≥ s2.num_pages
          · exact ⟨_, run_bind_ok _ (run_getPage_new hnp (by omega)), rfl⟩
          · exact ⟨_, run_bind_ok _ (run_getPage_old (by omega) (by omega)), rfl⟩
        rcases hstep1 with ⟨t1, hrun1, hpg1⟩
        rcases hstep2 with ⟨t2, hrun2, hpg2⟩
        rw [hrun1] at h
        rw [hrun2]
        exact ih _ _ _ _ t2 h (by rw [hpg2, hpg, ← hpg1])
    · rw [get_node_max_key_leaf fuel p s1 htype] at h
      injection h with h
      injection h with h1 h2
      rw [get_node_max_key_leaf fuel p s2 (htype2.trans htype), hpg]
      exact ⟨s2, by rw [h1]⟩

/-! # leaf_node_split_and_insert: the state after the cell distribution -/

theorem splitSourceCell_congr (nd1 nd2 : Node) (c k : Nat) (v : Row) (i : Nat)
    (h : nd1.leafCells = nd2.leafCells) :
    splitSourceCell nd1 c k v i = splitSourceCell nd2 c k v i := by
  unfold splitSourceCell
  rw [h]

/-- The state reached by `leaf_node_split_and_insert` just before its
root check (`db.py` 538): the sibling chain is spliced, the `MAX+1`
logical cells are distributed `LEFT`/`RIGHT`, both counts are set, and
one fresh page has been materialised. -/
def splitMid (s : Db) (cursor : Cursor) (key : Nat) (value : Row) : Db :=
  { pages := (fun q =>
      if q = cursor.page_num then
        { (s.pages cursor.page_num) with
            countField := LEAF_NODE_LEFT_SPLIT_COUNT,
            linkField := s.num_pages,
            leafCells := (fun j =>
              if j < LEAF_NODE_LEFT_SPLIT_COUNT then
                splitSourceCell (s.pages cursor.page_num) cursor.cell_num key value j
              else (s.pages cursor.page_num).leafCells j) }
      else if q = s.num_pages then
        { nodeType := NodeKind.LEAF, isRoot := false,
          parent := (s.pages cursor.page_num).parent,
          countField := LEAF_NODE_RIGHT_SPLIT_COUNT,
          linkField := (s.pages cursor.page_num).linkField,
          leafCells := (fun j =>
            if j < LEAF_NODE_RIGHT_SPLIT_COUNT then
              splitSourceCell (s.pages cursor.page_num) cursor.cell_num key value
                (j + LEAF_NODE_LEFT_SPLIT_COUNT)
            else (s.pages s.num_pages).leafCells j),
          icells := (s.pages s.num_pages).icells }
      else s.pages q),
    num_pages := s.num_pages + 1 }

/-- Running `leaf_node_split_and_insert` on a root leaf: distribute the
cells into `splitMid` and call `create_new_root` on the fresh page. -/
theorem leaf_node_split_and_insert_root (fuel : Nat) (cursor : Cursor) (key : Nat)
    (value : Row) (s : Db)
    (hp : cursor.page_num < s.num_pages) (hcap : s.num_pages ≤ TABLE_MAX_PAGES)
    (htype : get_node_type (s.pages cursor.page_num) = NodeKind.LEAF)
    (hroot : is_node_root (s.pages cursor.page_num) = true) :
    leaf_node_split_and_insert (fuel + 1) cursor key value s =
      create_new_root (fuel + 1) s.num_pages (splitMid s cursor key value) := by
  have hL : LEAF_NODE_LEFT_SPLIT_COUNT = 7 := by decide
  have hR : LEAF_NODE_RIGHT_SPLIT_COUNT = 7 := by decide
  have hM : LEAF_NODE_MAX_CELLS = 13 := by decide
  have hne : cursor.page_num ≠ s.num_pages := by omega
  unfold leaf_node_split_and_insert
  rw [run_bind_ok _ (run_getPage_old hp (by omega))]
  rw [run_bind_ok _ (get_node_max_key_leaf fuel _ _ htype)]
  rw [run_bind_ok _ (run_getUnused _)]
  rw [run_bind_ok _ (run_getPage_new (le_refl _) hcap)]
  rw [run_bind_ok _ (run_updPage _ _ _)]
  rw [run_bind_ok _ (run_readPage _ _)]
  rw [run_bind_ok _ (run_updPage _ _ _)]
  rw [run_bind_ok _ (run_readPage _ _)]
  rw [run_bind_ok _ (run_updPage _ _ _)]
  rw [run_bind_ok _ (run_updPage _ _ _)]
  rw [run_bind_ok _ (leafSplitLoop_spec _ _ _ _ _ _ _ (by omega) hne)]
  rw [run_bind_ok _ (run_updPage _ _ _)]
  rw [run_bind_ok _ (run_updPage _ _ _)]
  rw [run_bind_ok _ (run_readPage _ _)]
  split
  · congr 1
    refine dbExt _ _ (fun q => ?_) ?_
    · by_cases hq1 : q = cursor.page_num
      · subst hq1
        simp only [splitMid, Db.upd, initialize_leaf_node, set_node_type, set_node_root,
          set_leaf_node_num_cells, set_leaf_node_next_leaf, set_node_parent,
          node_parent, leaf_node_next_leaf, leaf_node_num_cells, leaf_node_cell,
          splitSourceCell, hne, if_true, if_false, if_pos rfl, if_neg hne]
        refine nodeExt _ _ rfl rfl rfl rfl rfl (fun j => ?_) (fun j => rfl)
        dsimp only
        split_ifs <;> first | rfl | omega | (congr 1 <;> omega)
      · by_cases hq2 : q = s.num_pages
        · subst hq2
          simp only [splitMid, Db.upd, initialize_leaf_node, set_node_type, set_node_root,
            set_leaf_node_num_cells, set_leaf_node_next_leaf, set_node_parent,
            node_parent, leaf_node_next_leaf, leaf_node_num_cells, leaf_node_cell,
            splitSourceCell, hne, Ne.symm hne, if_true, if_false, if_pos rfl,
            if_neg (Ne.symm hne)]
          refine nodeExt _ _ rfl rfl rfl rfl rfl (fun j => ?_) (fun j => rfl)
          dsimp only
          split_ifs <;> first | rfl | omega | (congr 1 <;> omega)
        · simp only [splitMid, Db.upd, hq1, hq2, if_false, if_neg hq1, if_neg hq2]
    · rfl
  · rename_i hroot2
    exfalso
    apply hroot2
    simp only [Db.upd, initialize_leaf_node, set_node_type, set_node_root,
      set_leaf_node_num_cells, set_leaf_node_next_leaf, set_node_parent,
      node_parent, leaf_node_next_leaf, is_node_root, hne, if_true, if_false,
      if_pos rfl, if_neg hne]
    exact hroot

/-! # create_new_root on a leaf root -/

theorem node_ne_internal {nd : Node} (h : get_node_type nd = NodeKind.LEAF) :
    ¬ get_node_type nd = NodeKind.INTERNAL := by
  rw [h]
  decide


/-- The state produced by `create_new_root(right)` when the root is a
leaf: the root's bytes move to the fresh left-child page, page 0 becomes
an internal root with one key — the left child's max key — and the two
children are re-parented to page 0. -/
def createRootLeafResult (t : Db) (R : Nat) : Db :=
  { pages := (fun q =>
      if q = 0 then
        { nodeType := NodeKind.INTERNAL, isRoot := true, parent := (t.pages 0).parent,
          countField := 1, linkField := R,
          leafCells := (t.pages 0).leafCells,
          icells := (fun j =>
            if j = 0 then
              (t.num_pages,
               ((t.pages 0).leafCells ((t.pages 0).countField - 1)).key)
            else (t.pages 0).icells j) }
      else if q = t.num_pages then
        { (t.pages 0) with isRoot := false, parent := 0 }
      else if q = R then
        { (t.pages R) with parent := 0 }
      else t.pages q),
    num_pages := t.num_pages + 1 }

theorem create_new_root_leaf (fuel : Nat) (R : Nat) (t : Db)
    (htype : get_node_type (t.pages 0) = NodeKind.LEAF)
    (hR : R < t.num_pages) (hR0 : R ≠ 0)
    (hcap : t.num_pages ≤ TABLE_MAX_PAGES) (h0 : 0 < t.num_pages) :
    create_new_root (fuel + 1) R t = .ok ((), createRootLeafResult t R) := by
  have hL0 : t.num_pages ≠ 0 := by omega
  have hRL : R ≠ t.num_pages := by omega
  unfold create_new_root
  simp only [root_page_num]
  rw [run_bind_ok _ (run_getPage_old h0 (by omega))]
  rw [run_bind_ok _ (run_getPage_old hR (by omega))]
  rw [run_bind_ok _ (run_getUnused _)]
  rw [run_bind_ok _ (run_getPage_new (le_refl _) hcap)]
  rw [if_neg (node_ne_internal htype)]
  rw [run_bind_ok _ (run_pure _ _)]
  rw [run_bind_ok _ (run_readPage _ _)]
  rw [run_bind_ok _ (run_updPage _ _ _)]
  rw [run_bind_ok _ (run_updPage _ _ _)]
  rw [run_bind_ok _ (run_readPage _ _)]
  rw [if_neg (by
    apply node_ne_internal
    simp only [Db.upd, set_node_root, get_node_type, set_node_type, hL0, if_true,
      if_false, if_pos rfl, if_neg hL0]
    exact htype)]
  rw [run_bind_ok _ (run_pure _ _)]
  rw [run_bind_ok _ (run_updPage _ _ _)]
  rw [run_bind_ok _ (run_updPage _ _ _)]
  rw [run_bind_ok _ (run_updPage _ _ _)]
  rw [run_bind_ok _ (run_updPage _ _ _)]
  rw [run_bind_ok _ (get_node_max_key_leaf fuel _ _ (by
    simp only [Db.upd, set_node_root, get_node_type, set_node_type, set_internal_node_child,
      set_internal_node_num_keys, set_internal_node_right_child, initialize_internal_node,
      internal_node_num_keys, hL0, if_true, if_false, if_pos rfl, if_neg hL0]
    first
      | exact htype
      | (split_ifs <;> exact htype)))]
  rw [run_bind_ok _ (run_updPage _ _ _)]
  rw [run_bind_ok _ (run_updPage _ _ _)]
  rw [run_bind_ok _ (run_updPage _ _ _)]
  rw [run_updPage]
  refine congrArg (fun d => Except.ok ((), d)) ?_
  refine dbExt _ _ (fun q => ?_) rfl
  by_cases hq0 : q = 0
  · subst hq0
    simp only [createRootLeafResult, Db.upd, initialize_internal_node, set_node_type,
      set_node_root, set_internal_node_num_keys, set_internal_node_right_child,
      set_internal_node_child, set_internal_node_key, set_node_parent,
      internal_node_num_keys, leaf_node_key, leaf_node_num_cells, hL0, hR0,
      if_true, if_false, if_pos rfl, if_neg hL0, if_neg hR0, if_neg hRL,
      if_neg (Ne.symm hL0), if_neg (Ne.symm hR0), if_neg (Ne.symm hRL),
      if_neg (show ¬(0 : Nat) = 1 by decide)]
    refine nodeExt _ _ rfl rfl rfl rfl rfl (fun j => rfl) (fun j => ?_)
    dsimp only
    split_ifs <;> rfl
  · by_cases hqL : q = t.num_pages
    · subst hqL
      simp only [createRootLeafResult, Db.upd, initialize_internal_node, set_node_type,
        set_node_root, set_internal_node_num_keys, set_internal_node_right_child,
        set_internal_node_child, set_internal_node_key, set_node_parent,
        internal_node_num_keys, hL0, hR0, hRL, if_true, if_false, if_pos rfl,
        if_neg hL0, if_neg hRL, if_neg (Ne.symm hRL), if_neg (Ne.symm hL0)]
      try first
        | rfl
        | (split_ifs <;> rfl)
    · by_cases hqR : q = R
      · subst hqR
        simp only [createRootLeafResult, Db.upd, initialize_internal_node, set_node_type,
          set_node_root, set_internal_node_num_keys, set_internal_node_right_child,
          set_internal_node_child, set_internal_node_key, set_node_parent,
          internal_node_num_keys, hR0, hRL, if_true, if_false, if_pos rfl,
          if_neg hR0, if_neg hRL, if_neg (Ne.symm hRL), if_neg (Ne.symm hR0)]
        try first
          | rfl
          | (split_ifs <;> rfl)
      · simp only [createRootLeafResult, Db.upd, hq0, hqL, hqR, if_false,
          if_neg hq0, if_neg hqL, if_neg hqR]

/-! # Executor-level run lemmas -/

theorem leaf_node_insert_full (fuel : Nat) (cursor : Cursor) (key : Nat) (value : Row)
    (s : Db) (hp : cursor.page_num < s.num_pages) (hcap : cursor.page_num ≤ TABLE_MAX_PAGES)
    (hfull : leaf_node_num_cells (s.pages cursor.page_num) ≥ LEAF_NODE_MAX_CELLS) :
    leaf_node_insert fuel cursor key value s =
      leaf_node_split_and_insert fuel cursor key value s := by
  unfold leaf_node_insert
  rw [run_bind_ok _ (run_getPage_old hp hcap)]
  rw [if_pos hfull]

theorem table_find_leafroot (fuel : Nat) (key : Nat) (s : Db)
    (htype : get_node_type (s.pages 0) = NodeKind.LEAF) (h0 : 0 < s.num_pages) :
    table_find fuel key s =
      .ok ({ page_num := 0,
             cell_num := leafFindLoop (s.pages 0) key (leaf_node_num_cells (s.pages 0)) 0
               (leaf_node_num_cells (s.pages 0)),
             end_of_table := false }, s) := by
  unfold table_find
  simp only [root_page_num]
  rw [run_bind_ok _ (run_getPage_old h0 (by decide))]
  rw [htype]
  show leaf_node_find 0 key s = _
  unfold leaf_node_find
  rw [run_bind_ok _ (run_getPage_old h0 (by decide))]
  rfl

theorem table_find_internal_leafchild (fuel : Nat) (key : Nat) (s : Db) (c : Nat)
    (htype0 : get_node_type (s.pages 0) = NodeKind.INTERNAL) (h0 : 0 < s.num_pages)
    (hchild : internal_node_child (s.pages 0) (internal_node_find_child (s.pages 0) key) =
      .ok c)
    (hc : c < s.num_pages) (hcap : c ≤ TABLE_MAX_PAGES)
    (htc : get_node_type (s.pages c) = NodeKind.LEAF) :
    table_find (fuel + 1) key s =
      .ok ({ page_num := c,
             cell_num := leafFindLoop (s.pages c) key (leaf_node_num_cells (s.pages c)) 0
               (leaf_node_num_cells (s.pages c)),
             end_of_table := false }, s) := by
  unfold table_find
  simp only [root_page_num]
  rw [run_bind_ok _ (run_getPage_old h0 (by decide))]
  rw [htype0]
  show internal_node_find (fuel + 1) 0 key s = _
  unfold internal_node_find
  rw [run_bind_ok _ (run_getPage_old h0 (by decide))]
  rw [run_bind_ok _ (by rw [hchild]; exact run_liftE_ok c s)]
  rw [run_bind_ok _ (run_getPage_old hc hcap)]
  rw [htc]
  show leaf_node_find c key s = _
  unfold leaf_node_find
  rw [run_bind_ok _ (run_getPage_old hc hcap)]
  rfl

theorem execute_insert_run (fuel : Nat) (row : Row) (s : Db) (cursor : Cursor) (s1 : Db)
    (hfind : table_find fuel row.id s = .ok (cursor, s1))
    (hp : cursor.page_num < s1.num_pages) (hcap : cursor.page_num ≤ TABLE_MAX_PAGES) :
    execute_insert fuel row s =
      if cursor.cell_num < leaf_node_num_cells (s1.pages cursor.page_num) ∧
          leaf_node_key (s1.pages cursor.page_num) cursor.cell_num = row.id then
        .ok (ExecuteResult.DUPLICATE_KEY, s1)
      else
        (leaf_node_insert fuel cursor row.id row >>= fun _ =>
          (pure ExecuteResult.SUCCESS : M ExecuteResult)) s1 := by
  unfold execute_insert
  rw [run_bind_ok _ hfind]
  rw [run_bind_ok _ (run_getPage_old hp hcap)]
  split
  · rfl
  · rfl

theorem table_start_run (fuel : Nat) (s : Db) (cursor : Cursor) (s1 : Db)
    (hfind : table_find fuel 0 s = .ok (cursor, s1))
    (hp : cursor.page_num < s1.num_pages) (hcap : cursor.page_num ≤ TABLE_MAX_PAGES) :
    table_start fuel s =
      .ok ({ cursor with
             end_of_table := leaf_node_num_cells (s1.pages cursor.page_num) = 0 }, s1) := by
  unfold table_start
  rw [run_bind_ok _ hfind]
  rw [run_bind_ok _ (run_getPage_old hp hcap)]
  rfl

theorem runInserts_cons (fuel : Nat) (r : Row) (rest : List Row) (s : Db) :
    runInserts fuel (r :: rest) s =
      match execute_insert fuel r s with
      | .error e => .error e
      | .ok (_, s1) => runInserts fuel rest s1 := by
  show ((execute_insert fuel r : M ExecuteResult) >>= fun _ => runInserts fuel rest) s = _
  rw [run_bind]
  rcases execute_insert fuel r s with e | ⟨a, t⟩ <;> rfl

theorem runInserts_nil (fuel : Nat) (s : Db) : runInserts fuel [] s = .ok ((), s) := rfl

/-! # Walking the leaf chain: select -/

/-- The rows stored in a leaf node, in cell order. -/
def pageRows (nd : Node) : List Row :=
  (List.range (leaf_node_num_cells nd)).map (fun j => (nd.leafCells j).value)

/-- The rows stored along a list of leaf pages. -/
def chainRows (s : Db) : List Nat → List Row
  | [] => []
  | p :: rest => pageRows (s.pages p) ++ chainRows s rest

/-- Total number of cells along a list of leaf pages. -/
def chainSize (s : Db) : List Nat → Nat
  | [] => 0
  | p :: rest => leaf_node_num_cells (s.pages p) + chainSize s rest

/-- A materialised, non-empty, `next_leaf`-linked chain of leaves ending
in the 0 sentinel. -/
def LeafChain (s : Db) : List Nat → Prop
  | [] => True
  | [p] => p < s.num_pages ∧ p ≤ TABLE_MAX_PAGES ∧
      1 ≤ leaf_node_num_cells (s.pages p) ∧ leaf_node_next_leaf (s.pages p) = 0
  | p :: q :: rest => p < s.num_pages ∧ p ≤ TABLE_MAX_PAGES ∧
      1 ≤ leaf_node_num_cells (s.pages p) ∧ leaf_node_next_leaf (s.pages p) = q ∧
      q ≠ 0 ∧ LeafChain s (q :: rest)

theorem selectLoop_eot (fuel : Nat) (cursor : Cursor) (acc : List Row) (s : Db)
    (hf : 1 ≤ fuel) (h : cursor.end_of_table = true) :
    selectLoop fuel cursor acc s = .ok (acc.reverse, s) := by
  cases fuel with
  | zero => omega
  | succ f =>
    unfold selectLoop
    rw [if_pos h]
    rfl

theorem cursor_advance_run (cursor : Cursor) (s : Db)
    (hp : cursor.page_num < s.num_pages) (hcap : cursor.page_num ≤ TABLE_MAX_PAGES) :
    cursor_advance cursor s =
      .ok (if cursor.cell_num + 1 ≥ leaf_node_num_cells (s.pages cursor.page_num) then
             (if leaf_node_next_leaf (s.pages cursor.page_num) = 0 then
               { cursor with cell_num := cursor.cell_num + 1, end_of_table := true }
             else
               { cursor with
                   page_num := leaf_node_next_leaf (s.pages cursor.page_num)
                   cell_num := 0 })
           else { cursor with cell_num := cursor.cell_num + 1 }, s) := by
  unfold cursor_advance
  rw [run_bind_ok _ (run_getPage_old hp hcap)]
  by_cases h1 : cursor.cell_num + 1 ≥ leaf_node_num_cells (s.pages cursor.page_num)
  · rw [if_pos h1, if_pos h1]
    by_cases h2 : leaf_node_next_leaf (s.pages cursor.page_num) = 0
    · rw [if_pos h2, if_pos h2]
      rfl
    · rw [if_neg h2, if_neg h2]
      rfl
  · rw [if_neg h1, if_neg h1]
    rfl

theorem pageRows_drop (nd : Node) (c : Nat) (h : c < leaf_node_num_cells nd) :
    (pageRows nd).drop c = (nd.leafCells c).value :: (pageRows nd).drop (c + 1) := by
  have hlen : (pageRows nd).length = leaf_node_num_cells nd := by
    simp [pageRows]
  rw [List.drop_eq_getElem_cons (by omega)]
  congr 1
  simp [pageRows]

theorem pageRows_drop_last (nd : Node) :
    (pageRows nd).drop (leaf_node_num_cells nd) = [] := by
  apply List.drop_eq_nil_of_le
  simp [pageRows]

/-- Walking `selectLoop` down a leaf chain collects exactly the stored
rows, in order, without changing the state. -/
theorem selectLoop_chain (s : Db) :
    ∀ (fuel : Nat) (ps : List Nat) (p : Nat) (c : Nat) (acc : List Row),
    LeafChain s (p :: ps) → c < leaf_node_num_cells (s.pages p) →
    (leaf_node_num_cells (s.pages p) - c) + chainSize s ps + 1 ≤ fuel →
    selectLoop fuel { page_num := p, cell_num := c, end_of_table := false } acc s =
      .ok (acc.reverse ++ (pageRows (s.pages p)).drop c ++ chainRows s ps, s) := by
  intro fuel
  induction fuel with
  | zero =>
    intro ps p c acc _ _ hfuel
    omega
  | succ fuel ih =>
    intro ps p c acc hchain hc hfuel
    have hp : p < s.num_pages := by
      rcases ps with _ | ⟨q, rest⟩
      · exact hchain.1
      · exact hchain.1
    have hcap : p ≤ TABLE_MAX_PAGES := by
      rcases ps with _ | ⟨q, rest⟩
      · exact hchain.2.1
      · exact hchain.2.1
    unfold selectLoop
    rw [if_neg (by exact fun h => Bool.noConfusion h)]
    rw [run_bind_ok _ (run_getPage_old hp hcap)]
    rw [run_bind_ok _ (cursor_advance_run _ _ hp hcap)]
    by_cases hlast : c + 1 ≥ leaf_node_num_cells (s.pages p)
    · have hceq : c + 1 = leaf_node_num_cells (s.pages p) := by omega
      rw [if_pos hlast]
      rcases ps with _ | ⟨q, rest⟩
      · rw [if_pos hchain.2.2.2]
        rw [selectLoop_eot fuel _ _ _ (by omega) rfl]
        rw [pageRows_drop _ _ hc, hceq, pageRows_drop_last]
        simp [chainRows, leaf_node_cell]
      · rw [if_neg (by rw [hchain.2.2.2.1]; exact hchain.2.2.2.2.1)]
        rw [hchain.2.2.2.1]
        have hq1 : 1 ≤ leaf_node_num_cells (s.pages q) := by
          rcases rest with _ | ⟨r, rest2⟩
          · exact hchain.2.2.2.2.2.2.2.1
          · exact hchain.2.2.2.2.2.2.2.1
        rw [ih rest q 0 _ hchain.2.2.2.2.2 (by omega)
          (by simp only [chainSize] at hfuel ⊢; omega)]
        rw [pageRows_drop _ _ hc, hceq, pageRows_drop_last]
        simp [chainRows, leaf_node_cell]
    · rw [if_neg hlast]
      rw [ih ps p (c + 1) _ hchain (by omega) (by omega)]
      rw [pageRows_drop _ _ hc]
      simp [leaf_node_cell]

/-! # The ascending-insert scenario (C5) -/

/-- Cells `1..k` of the single-leaf states of the scenario. -/
def ascCells (k : Nat) : Nat → LeafCell :=
  fun j => if j < k then { key := j + 1, value := mkRow (j + 1) } else zeroNode.leafCells j

/-- The root leaf holding ids `1..k`. -/
def ascNode (k : Nat) : Node :=
  { nodeType := NodeKind.LEAF, isRoot := true, parent := 0,
    countField := k, linkField := 0,
    leafCells := ascCells k, icells := zeroNode.icells }

/-- The database after inserting ids `1..k` ascending into a fresh table
(for `k ≤ LEAF_NODE_MAX_CELLS`): one root leaf on page 0. -/
def ascLeafDb (k : Nat) : Db :=
  { pages := (fun q => if q = 0 then ascNode k else zeroNode), num_pages := 1 }

theorem ascLeafDb_zero : freshDb = ascLeafDb 0 := by
  refine dbExt _ _ (fun m => ?_) rfl
  by_cases hm : m = 0
  · subst hm
    show set_node_root (initialize_leaf_node zeroNode) true = ascNode 0
    refine nodeExt _ _ rfl rfl rfl rfl rfl (fun j => ?_) (fun j => rfl)
    simp [initialize_leaf_node, set_node_root, set_leaf_node_num_cells,
      set_leaf_node_next_leaf, set_node_type, ascNode, ascCells, zeroNode]
  · simp [freshDb, ascLeafDb, hm]

theorem ascNode_key (k j : Nat) (h : j < k) : leaf_node_key (ascNode k) j = j + 1 := by
  simp [leaf_node_key, ascNode, ascCells, h]

/-- Searching `k + 1` in the leaf with keys `1..k` lands one past the end. -/
theorem ascFindLoop (k gas : Nat) (hgas : k ≤ gas) :
    leafFindLoop (ascNode k) (k + 1) gas 0 k = k := by
  have h := leafFindLoop_correct (ascNode k) (k + 1) gas 0 k (by omega) (by omega)
    (fun i j h1 h2 h3 => by
      rw [ascNode_key k i (by omega), ascNode_key k j h3]
      omega)
  rcases Nat.lt_or_ge (leafFindLoop (ascNode k) (k + 1) gas 0 k) k with hlt | hge
  · exfalso
    have h2 := h.2.2.2 hlt
    rw [ascNode_key k _ hlt] at h2
    omega
  · omega

theorem asc_table_find (fuel k : Nat) :
    table_find fuel (k + 1) (ascLeafDb k) =
      .ok ({ page_num := 0, cell_num := k, end_of_table := false }, ascLeafDb k) := by
  rw [table_find_leafroot fuel (k + 1) (ascLeafDb k) rfl Nat.one_pos]
  rw [show (ascLeafDb k).pages 0 = ascNode k from rfl]
  rw [show leaf_node_num_cells (ascNode k) = k from rfl]
  rw [ascFindLoop k k (le_refl k)]

theorem asc_upd (k : Nat) (hk : k < LEAF_NODE_MAX_CELLS) :
    (ascLeafDb k).upd 0 (fun nd => leafInsertResult nd k (k + 1) (mkRow (k + 1))) =
      ascLeafDb (k + 1) := by
  refine dbExt _ _ (fun q => ?_) rfl
  by_cases hq : q = 0
  · subst hq
    show leafInsertResult (ascNode k) k (k + 1) (mkRow (k + 1)) = ascNode (k + 1)
    refine nodeExt _ _ rfl rfl rfl rfl rfl (fun j => ?_) (fun j => rfl)
    simp only [leafInsertResult, ascNode, ascCells]
    split_ifs <;>
      first
        | rfl
        | omega
        | (congr 1 <;> first | rfl | omega | (congr 1 <;> omega))
  · simp [Db.upd, ascLeafDb, hq]

/-- One accepted ascending insert into a non-full root leaf. -/
theorem asc_step (fuel k : Nat) (hk : k < LEAF_NODE_MAX_CELLS) :
    execute_insert fuel (mkRow (k + 1)) (ascLeafDb k) =
      .ok (ExecuteResult.SUCCESS, ascLeafDb (k + 1)) := by
  rw [execute_insert_run fuel (mkRow (k + 1)) (ascLeafDb k) _ _
    (asc_table_find fuel k) Nat.one_pos (Nat.zero_le _)]
  rw [if_neg (fun hcont => absurd hcont.1 (lt_irrefl k))]
  rw [run_bind_ok _ (leaf_node_insert_spec fuel
    { page_num := 0, cell_num := k, end_of_table := false } (mkRow (k + 1)).id
    (mkRow (k + 1)) (ascLeafDb k) (Nat.zero_le _) Nat.one_pos (by exact hk)
    (by exact le_refl k))]
  exact congrArg (fun d => Except.ok (ExecuteResult.SUCCESS, d)) (asc_upd k hk)

/-- The rows `mkRow (j+1), ..., mkRow (j+k)`. -/
def ascRows (j : Nat) : Nat → List Row
  | 0 => []
  | k + 1 => mkRow (j + 1) :: ascRows (j + 1) k

theorem runInserts_cons_ok (fuel : Nat) (r : Row) (rest : List Row) (s t : Db)
    (a : ExecuteResult) (h : execute_insert fuel r s = .ok (a, t)) :
    runInserts fuel (r :: rest) s = runInserts fuel rest t := by
  show ((execute_insert fuel r : M ExecuteResult) >>= fun _ => runInserts fuel rest) s = _
  rw [run_bind_ok _ h]

theorem runInserts_cons_err (fuel : Nat) (r : Row) (rest : List Row) (s : Db)
    (e : DbErr) (h : execute_insert fuel r s = .error e) :
    runInserts fuel (r :: rest) s = .error e := by
  show ((execute_insert fuel r : M ExecuteResult) >>= fun _ => runInserts fuel rest) s = _
  rw [run_bind_error _ h]

theorem runInserts_append (fuel : Nat) (l1 : List Row) :
    ∀ (l2 : List Row) (s s1 : Db), runInserts fuel l1 s = .ok ((), s1) →
    runInserts fuel (l1 ++ l2) s = runInserts fuel l2 s1 := by
  induction l1 with
  | nil =>
    intro l2 s s1 h
    rw [runInserts_nil] at h
    cases h
    rfl
  | cons r rest ih =>
    intro l2 s s1 h
    rcases hE : execute_insert fuel r s with e | ⟨a, t⟩
    · rw [runInserts_cons_err fuel r rest s e hE] at h
      exact Except.noConfusion h
    · rw [runInserts_cons_ok fuel r rest s t a hE] at h
      rw [List.cons_append, runInserts_cons_ok fuel r (rest ++ l2) s t a hE]
      exact ih l2 t s1 h

/-- The first `LEAF_NODE_MAX_CELLS` ascending inserts stay in the root leaf. -/
theorem asc_runInserts (fuel : Nat) :
    ∀ k j, j + k ≤ LEAF_NODE_MAX_CELLS →
    runInserts fuel (ascRows j k) (ascLeafDb j) = .ok ((), ascLeafDb (j + k)) := by
  intro k
  induction k with
  | zero =>
    intro j h
    exact runInserts_nil fuel _
  | succ k ih =>
    intro j h
    rw [show ascRows j (k + 1) = mkRow (j + 1) :: ascRows (j + 1) k from rfl]
    rw [runInserts_cons_ok fuel _ _ _ _ _ (asc_step fuel j (by omega))]
    have h2 := ih (j + 1) (by omega)
    rw [show j + 1 + k = j + (k + 1) from by omega] at h2
    exact h2

/-! ## The 14th insert: root-leaf split -/

/-- Page 2 after the split: the old root's bytes, holding ids `1..7`. -/
def leftLeaf : Node :=
  { nodeType := NodeKind.LEAF, isRoot := false, parent := 0,
    countField := LEAF_NODE_LEFT_SPLIT_COUNT, linkField := 1,
    leafCells := ascCells LEAF_NODE_MAX_CELLS, icells := zeroNode.icells }

/-- Page 1 after the split: the fresh right sibling, holding ids `8..14`. -/
def rightLeaf : Node :=
  { nodeType := NodeKind.LEAF, isRoot := false, parent := 0,
    countField := LEAF_NODE_RIGHT_SPLIT_COUNT, linkField := 0,
    leafCells := (fun j =>
      if j < LEAF_NODE_RIGHT_SPLIT_COUNT then { key := j + 8, value := mkRow (j + 8) }
      else zeroNode.leafCells j),
    icells := zeroNode.icells }

/-- Page 0 after the split: an internal root, one key, separator 7. -/
def rootNode14 : Node :=
  { nodeType := NodeKind.INTERNAL, isRoot := true, parent := 0,
    countField := 1, linkField := 1,
    leafCells := ascCells LEAF_NODE_MAX_CELLS,
    icells := (fun j => if j = 0 then (2, LEAF_NODE_LEFT_SPLIT_COUNT) else zeroNode.icells j) }

/-- The database after inserting ids `1..14` ascending. -/
def splitDb : Db :=
  { pages := (fun q =>
      if q = 0 then rootNode14
      else if q = 1 then rightLeaf
      else if q = 2 then leftLeaf
      else zeroNode),
    num_pages := 3 }

theorem splitDb_eq :
    createRootLeafResult
      (splitMid (ascLeafDb 13) { page_num := 0, cell_num := 13, end_of_table := false }
        14 (mkRow 14)) 1 = splitDb := by
  refine dbExt _ _ (fun q => ?_) rfl
  by_cases hq0 : q = 0
  · subst hq0
    show _ = rootNode14
    refine nodeExt _ _ rfl rfl rfl rfl rfl (fun j => ?_) (fun j => ?_)
    · show (if j < LEAF_NODE_LEFT_SPLIT_COUNT then
          splitSourceCell (ascNode 13) 13 14 (mkRow 14) j else ascCells 13 j) =
        ascCells LEAF_NODE_MAX_CELLS j
      simp only [splitSourceCell, ascNode, ascCells]
      rw [show LEAF_NODE_LEFT_SPLIT_COUNT = 7 from by decide,
        show LEAF_NODE_MAX_CELLS = 13 from by decide]
      split_ifs <;>
        first
          | rfl
          | omega
          | (congr 1 <;> first | rfl | omega | (congr 1 <;> omega))
    · show (if j = 0 then _ else _) = (if j = 0 then _ else _)
      by_cases hj : j = 0
      · subst hj
        show (2, (splitSourceCell (ascNode 13) 13 14 (mkRow 14)
            (LEAF_NODE_LEFT_SPLIT_COUNT - 1)).key) = _
        rfl
      · simp only [hj, if_false, if_neg hj]
        rfl
  · by_cases hq2 : q = 2
    · subst hq2
      show _ = leftLeaf
      refine nodeExt _ _ rfl rfl rfl rfl rfl (fun j => ?_) (fun j => rfl)
      show (if j < LEAF_NODE_LEFT_SPLIT_COUNT then
          splitSourceCell (ascNode 13) 13 14 (mkRow 14) j else ascCells 13 j) =
        ascCells LEAF_NODE_MAX_CELLS j
      simp only [splitSourceCell, ascNode, ascCells]
      rw [show LEAF_NODE_LEFT_SPLIT_COUNT = 7 from by decide,
        show LEAF_NODE_MAX_CELLS = 13 from by decide]
      split_ifs <;>
        first
          | rfl
          | omega
          | (congr 1 <;> first | rfl | omega | (congr 1 <;> omega))
    · by_cases hq1 : q = 1
      · subst hq1
        show _ = rightLeaf
        refine nodeExt _ _ rfl rfl rfl rfl rfl (fun j => ?_) (fun j => rfl)
        show (if j < LEAF_NODE_RIGHT_SPLIT_COUNT then
            splitSourceCell (ascNode 13) 13 14 (mkRow 14)
              (j + LEAF_NODE_LEFT_SPLIT_COUNT)
          else zeroNode.leafCells j) = _
        show _ = (if j < LEAF_NODE_RIGHT_SPLIT_COUNT then
            { key := j + 8, value := mkRow (j + 8) } else zeroNode.leafCells j)
        simp only [splitSourceCell, ascNode, ascCells]
        have hL : LEAF_NODE_LEFT_SPLIT_COUNT = 7 := by decide
        have hR : LEAF_NODE_RIGHT_SPLIT_COUNT = 7 := by decide
        rw [hL, hR]
        split_ifs <;>
          first
            | rfl
            | omega
            | (congr 1 <;> first | rfl | omega | (congr 1 <;> omega))
      · show (if q = 0 then _ else if q = _ then _ else if q = 1 then _ else _) = _
        simp only [splitDb, hq0, hq1, hq2, if_false, if_neg hq0, if_neg hq1, if_neg hq2]
        show (if q = 2 then _ else _) = _
        rw [if_neg hq2]
        show (if q = 0 then _ else if q = 1 then _ else _) = _
        rw [if_neg hq0, if_neg hq1]
        show (if q = 0 then ascNode 13 else zeroNode) = zeroNode
        rw [if_neg hq0]

/-- The 14th ascending insert splits the root leaf. -/
theorem asc_split14 (fuel : Nat) :
    execute_insert (fuel + 2) (mkRow 14) (ascLeafDb 13) =
      .ok (ExecuteResult.SUCCESS, splitDb) := by
  have hfind : table_find (fuel + 2) (mkRow 14).id (ascLeafDb 13) =
      .ok ({ page_num := 0, cell_num := 13, end_of_table := false }, ascLeafDb 13) :=
    asc_table_find (fuel + 2) 13
  rw [execute_insert_run (fuel + 2) (mkRow 14) (ascLeafDb 13) _ _ hfind
    Nat.one_pos (Nat.zero_le _)]
  rw [if_neg (fun hcont => absurd hcont.1 (lt_irrefl 13))]
  have hins : leaf_node_insert (fuel + 2)
      { page_num := 0, cell_num := 13, end_of_table := false } (mkRow 14).id (mkRow 14)
      (ascLeafDb 13) = .ok ((), splitDb) := by
    rw [leaf_node_insert_full (fuel + 2)
      { page_num := 0, cell_num := 13, end_of_table := false } (mkRow 14).id (mkRow 14)
      (ascLeafDb 13) Nat.one_pos (Nat.zero_le _) (by exact le_refl _)]
    rw [show fuel + 2 = (fuel + 1) + 1 from rfl]
    rw [leaf_node_split_and_insert_root (fuel + 1)
      { page_num := 0, cell_num := 13, end_of_table := false } (mkRow 14).id (mkRow 14)
      (ascLeafDb 13) Nat.one_pos (by show (1 : Nat) ≤ TABLE_MAX_PAGES; decide)
      (by exact rfl) (by exact rfl)]
    rw [show (ascLeafDb 13).num_pages = 1 from rfl]
    rw [create_new_root_leaf (fuel + 1) 1
      (splitMid (ascLeafDb 13) { page_num := 0, cell_num := 13, end_of_table := false }
        (mkRow 14).id (mkRow 14))
      (by exact rfl) (by decide) (by decide) (by decide) (by decide)]
    exact congrArg (fun d => Except.ok ((), d)) splitDb_eq
  rw [run_bind_ok _ hins]
  rfl

/-- Running all 14 ascending inserts from a fresh table. -/
theorem asc_run_all (fuel : Nat) :
    runInserts (fuel + 2) (ascRows 0 14) freshDb = .ok ((), splitDb) := by
  rw [show ascRows 0 14 = ascRows 0 13 ++ [mkRow 14] from rfl]
  rw [ascLeafDb_zero]
  rw [runInserts_append (fuel + 2) (ascRows 0 13) [mkRow 14] _ _
    (asc_runInserts (fuel + 2) 13 0 (by decide))]
  rw [show (0 : Nat) + 13 = 13 from rfl]
  rw [runInserts_cons_ok (fuel + 2) _ _ _ _ _ (asc_split14 fuel)]
  exact runInserts_nil _ _

/-- `select` on the split state walks pages 2 then 1 and yields ids 1..14. -/
theorem splitDb_select (fuel : Nat) :
    execute_select (fuel + 15) splitDb = .ok (ascRows 0 14, splitDb) := by
  have hfind : table_find (fuel + 15) 0 splitDb =
      .ok ({ page_num := 2, cell_num := 0, end_of_table := false }, splitDb) :=
    table_find_internal_leafchild (fuel + 14) 0 splitDb 2 rfl (by decide) rfl
      (by decide) (by decide) rfl
  have hstart : table_start (fuel + 15) splitDb =
      .ok ({ page_num := 2, cell_num := 0, end_of_table := false }, splitDb) :=
    table_start_run (fuel + 15) splitDb _ _ hfind (by decide) (by decide)
  have hchain : LeafChain splitDb [2, 1] :=
    ⟨by decide, by decide, by decide, rfl, by decide, by decide, by decide, by decide, rfl⟩
  show (table_start (fuel + 15) >>= fun cursor => selectLoop (fuel + 15) cursor []) splitDb = _
  rw [run_bind_ok _ hstart]
  rw [selectLoop_chain splitDb (fuel + 15) [1] 2 0 [] hchain (by decide)
    (by
      have h : leaf_node_num_cells (splitDb.pages 2) - 0 + chainSize splitDb [1] + 1 = 15 :=
        rfl
      omega)]
  rfl

/-- C5: starting from an empty database, inserting ids 1 through
`LEAF_NODE_MAX_CELLS + 1 = 14` in ascending order succeeds and produces a
tree whose page-0 root is an internal node with a single key equal to
`LEAF_NODE_LEFT_SPLIT_COUNT = 7` and exactly two children, both leaves
(the key-0 child and the right child, which are distinct pages), and
`select` then returns exactly the rows with ids 1..14 in ascending
order. -/
theorem C5_ascending_split_scenario (fuel : Nat) :
    ∃ s : Db,
      (table_open >>= fun _ => runInserts (fuel + 2)
        ((List.range (LEAF_NODE_MAX_CELLS + 1)).map (fun i => mkRow (i + 1)))) emptyDb =
        .ok ((), s) ∧
      get_node_type (s.pages root_page_num) = NodeKind.INTERNAL ∧
      is_node_root (s.pages root_page_num) = true ∧
      internal_node_num_keys (s.pages root_page_num) = 1 ∧
      internal_node_key (s.pages root_page_num) 0 = LEAF_NODE_LEFT_SPLIT_COUNT ∧
      (∃ lc, internal_node_child (s.pages root_page_num) 0 = .ok lc ∧
        get_node_type (s.pages lc) = NodeKind.LEAF ∧
        lc ≠ internal_node_right_child (s.pages root_page_num)) ∧
      get_node_type (s.pages (internal_node_right_child (s.pages root_page_num))) =
        NodeKind.LEAF ∧
      (∃ rows, execute_select (fuel + 15) s = .ok (rows, s) ∧
        rows.map Row.id = (List.range (LEAF_NODE_MAX_CELLS + 1)).map (fun i => i + 1)) := by
  refine ⟨splitDb, ?_, rfl, rfl, rfl, rfl, ⟨2, rfl, rfl, by decide⟩, rfl,
    ascRows 0 14, splitDb_select fuel, by decide⟩
  rw [run_bind_ok _ table_open_emptyDb]
  rw [show ((List.range (LEAF_NODE_MAX_CELLS + 1)).map (fun i => mkRow (i + 1))) =
    ascRows 0 14 from rfl]
  exact asc_run_all fuel

/-! # C3: the leaf split in general -/

